import Mathlib

/-!
Verification of the kmesh workload/service reconciliation core.

The processor applies workload/service upsert and removal events to four
kernel lookup tables (frontend, service, endpoint, backend), a name
registry and two userspace caches.  The repository provides the test
suite of the processor; the processor itself is modelled here from the
specification (spec.md sections 4.2 to 4.6), with its fixtures taken
from the test file.
-/

namespace KmeshSpec

/-- Association list lookup keyed by decidable equality. -/
def findA {α β : Type} [DecidableEq α] : List (α × β) → α → Option β
  | [], _ => none
  | p :: rest, k => if p.1 = k then some p.2 else findA rest k

/-- Remove every entry with the given key. -/
def eraseA {α β : Type} [DecidableEq α] (l : List (α × β)) (k : α) : List (α × β) :=
  l.filter (fun p => decide (p.1 ≠ k))

/-- Insert-or-replace an entry. -/
def insertA {α β : Type} [DecidableEq α] (l : List (α × β)) (k : α) (v : β) : List (α × β) :=
  (k, v) :: eraseA l k

theorem findA_nil {α β : Type} [DecidableEq α] (k : α) :
    findA ([] : List (α × β)) k = none := rfl

theorem findA_eraseA {α β : Type} [DecidableEq α] (l : List (α × β)) (k k' : α) :
    findA (eraseA l k) k' = if k' = k then none else findA l k' := by
  induction l with
  | nil => simp [eraseA, findA]
  | cons p rest ih =>
    by_cases hp : p.1 = k
    · have h1 : eraseA (p :: rest) k = eraseA rest k := by
        simp [eraseA, List.filter_cons, hp]
      rw [h1, ih]
      by_cases hk : k' = k
      · simp [hk]
      · have hp2 : ¬ p.1 = k' := fun h => hk (by rw [← h, hp])
        simp [findA, hk, hp2]
    · have h1 : eraseA (p :: rest) k = p :: eraseA rest k := by
        simp [eraseA, List.filter_cons, hp]
      rw [h1]
      by_cases hk : k' = k
      · have hp2 : ¬ p.1 = k' := fun h => hp (by rw [h, hk])
        rw [findA, if_neg hp2, ih, if_pos hk, if_pos hk]
      · rw [findA, findA, ih, if_neg hk, if_neg hk]

theorem findA_insertA {α β : Type} [DecidableEq α] (l : List (α × β)) (k k' : α) (v : β) :
    findA (insertA l k v) k' = if k' = k then some v else findA l k' := by
  by_cases hk : k' = k
  · simp [insertA, findA, hk]
  · have : ¬ k = k' := fun h => hk h.symm
    simp [insertA, findA, this, hk, findA_eraseA]

theorem findA_insertA_self {α β : Type} [DecidableEq α] (l : List (α × β)) (k : α) (v : β) :
    findA (insertA l k v) k = some v := by
  simp [findA_insertA]

theorem findA_insertA_ne {α β : Type} [DecidableEq α] (l : List (α × β)) (k k' : α) (v : β)
    (h : k' ≠ k) : findA (insertA l k v) k' = findA l k' := by
  simp [findA_insertA, h]

theorem findA_eraseA_self {α β : Type} [DecidableEq α] (l : List (α × β)) (k : α) :
    findA (eraseA l k) k = none := by
  simp [findA_eraseA]

theorem findA_eraseA_ne {α β : Type} [DecidableEq α] (l : List (α × β)) (k k' : α)
    (h : k' ≠ k) : findA (eraseA l k) k' = findA l k' := by
  simp [findA_eraseA, h]

/-- An IP address as its raw byte sequence, as the kernel map keys store it. -/
abbrev IPAddr := List Nat

/-- The all-zero 16-byte IP used when a record carries no waypoint. -/
def zeroIp : IPAddr := List.replicate 16 0

/-- A gateway (waypoint) address: destination IP plus HBONE mTLS port. -/
structure GatewayAddress where
  addr : IPAddr
  hboneMtlsPort : Nat
deriving DecidableEq

/-- A service-port/target-port pair. -/
structure PortPair where
  servicePort : Nat
  targetPort : Nat
deriving DecidableEq

/-- Workload network mode. -/
inductive NetworkMode where
  | standard
  | hostNetwork
deriving DecidableEq

/-- A workload resource as delivered by the control plane (spec section 3). -/
structure Workload where
  uid : String
  addresses : List IPAddr
  network : String
  networkMode : NetworkMode
  waypoint : Option GatewayAddress
  services : List (String × List PortPair)
deriving DecidableEq

/-- A service resource; resourceName is the namespace/hostname pair. -/
structure Service where
  resourceName : String
  addresses : List IPAddr
  ports : List PortPair
  waypoint : Option GatewayAddress
deriving DecidableEq

/-- Modelled from the spec: nets.ConvertPortToBigEndian swaps the two low
bytes of the port, producing its 16-bit network-byte-order representation. -/
def convertPortToBigEndian (p : Nat) : Nat :=
  (p % 256) * 256 + (p / 256) % 256

/-- Waypoint port of an optional gateway; the nil-safe accessor yields 0. -/
def gwPortOf : Option GatewayAddress → Nat
  | some gw => gw.hboneMtlsPort
  | none => 0

/-- Waypoint address of an optional gateway; zero bytes when absent. -/
def gwAddrOf : Option GatewayAddress → IPAddr
  | some gw => gw.addr
  | none => zeroIp

/-- A service-table value (spec section 6 layout, modelled fields). -/
structure ServiceValue where
  endpointCount : Nat
  waypointAddr : IPAddr
  waypointPort : Nat
  ports : List PortPair
deriving DecidableEq

/-- A backend-table value (spec section 6 layout, modelled fields). -/
structure BackendValue where
  ip : IPAddr
  waypointAddr : IPAddr
  waypointPort : Nat
deriving DecidableEq

/-- Modelled from the spec: the service value written by the processor;
waypoint port is stored in network byte order. -/
def serviceValueOf (svc : Service) (count : Nat) : ServiceValue :=
  { endpointCount := count
    waypointAddr := gwAddrOf svc.waypoint
    waypointPort := convertPortToBigEndian (gwPortOf svc.waypoint)
    ports := svc.ports }

/-- Modelled from the spec: the backend value written by the processor for a
workload; IP is the first address, waypoint port in network byte order. -/
def backendValueOf (wl : Workload) : BackendValue :=
  { ip := match wl.addresses with
          | a :: _ => a
          | [] => zeroIp
    waypointAddr := gwAddrOf wl.waypoint
    waypointPort := convertPortToBigEndian (gwPortOf wl.waypoint) }

/-- Modelled from the spec: the whole processor state.  The four kernel
tables, the persisted name registry (string-to-id bijection plus the
monotone allocation counter), the userspace caches, the restart marker and
the shadow endpoint-key snapshot used by the restart reconciler. -/
structure ProcessorState where
  strToNum : List (String × Nat)
  nextId : Nat
  frontend : List (IPAddr × Nat)
  serviceMap : List (Nat × ServiceValue)
  endpointMap : List ((Nat × Nat) × Nat)
  backendMap : List (Nat × BackendValue)
  workloadByUid : List (String × Workload)
  workloadByAddr : List ((String × IPAddr) × Workload)
  serviceCache : List (String × Service)
  endpointShadow : List ((Nat × Nat) × Nat)
  restart : Bool

/-- The state of a freshly started processor with empty maps and registry. -/
def initState : ProcessorState :=
  { strToNum := []
    nextId := 1
    frontend := []
    serviceMap := []
    endpointMap := []
    backendMap := []
    workloadByUid := []
    workloadByAddr := []
    serviceCache := []
    endpointShadow := []
    restart := false }

/-- Modelled from the spec: registry.hash resolves an existing id for a name. -/
def idOfName (st : ProcessorState) (name : String) : Nat :=
  match findA st.strToNum name with
  | some id => id
  | none => st.nextId

/-- Modelled from the spec: registry.hash allocates the next unused id on
first sight and records the binding; an existing name keeps its id. -/
def registerName (st : ProcessorState) (name : String) : ProcessorState :=
  { st with
    strToNum := if (findA st.strToNum name).isSome then st.strToNum
                else insertA st.strToNum name st.nextId
    nextId := if (findA st.strToNum name).isSome then st.nextId else st.nextId + 1 }

/-- Reverse registry lookup: the name an id is bound to, if any. -/
def nameOfId (st : ProcessorState) (id : Nat) : Option String :=
  (st.strToNum.find? (fun p => p.2 == id)).map Prod.fst

/-- Smallest slot in 1..n whose endpoint entry for the service holds the
given backend id, scanning the dense slot range. -/
def findSlot (ep : List ((Nat × Nat) × Nat)) (svcId b : Nat) : Nat → Option Nat
  | 0 => none
  | n + 1 =>
    match findSlot ep svcId b n with
    | some k => some k
    | none => if findA ep (svcId, n + 1) = some b then some (n + 1) else none

/-- The endpoint count the service table currently records for an id; a
missing entry counts as 0. -/
def oldCountOf (st : ProcessorState) (svcId : Nat) : Nat :=
  match findA st.serviceMap svcId with
  | some sv => sv.endpointCount
  | none => 0

/-- Modelled from the spec: Endpoint-Index.Append writes slot n+1 for the
service and increments its endpoint count. -/
def endpointAppend (st : ProcessorState) (svcId b : Nat) : ProcessorState :=
  match findA st.serviceMap svcId with
  | none => st
  | some sv =>
    { st with
      endpointMap := insertA st.endpointMap (svcId, sv.endpointCount + 1) b
      serviceMap := insertA st.serviceMap svcId
        { sv with endpointCount := sv.endpointCount + 1 } }

/-- The swap step of swap-with-last compaction: unless the freed slot k is
already the last slot n, the value of slot n is copied into slot k. -/
def epSwap (ep : List ((Nat × Nat) × Nat)) (svcId k n : Nat) : List ((Nat × Nat) × Nat) :=
  if k = n then ep
  else match findA ep (svcId, n) with
       | some last => insertA ep (svcId, k) last
       | none => ep

/-- Modelled from the spec: Endpoint-Index.Remove locates the slot holding
the backend; the last slot is moved into it (swap-with-last compaction),
the last slot is deleted and the endpoint count decremented.  A missing
backend is an invariant violation that is skipped. -/
def endpointRemove (st : ProcessorState) (svcId b : Nat) : ProcessorState :=
  match findSlot st.endpointMap svcId b (oldCountOf st svcId) with
  | none => st
  | some k =>
    match findA st.serviceMap svcId with
    | none => st
    | some sv =>
      { st with
        endpointMap :=
          eraseA (epSwap st.endpointMap svcId k sv.endpointCount) (svcId, sv.endpointCount)
        serviceMap :=
          insertA st.serviceMap svcId { sv with endpointCount := sv.endpointCount - 1 } }

/-- Does the service's dense slot range already contain the backend id?
Modelled from the spec, section 4.6: during the restart reconcile a
workload already holding a slot of a still-present service causes no
endpoint mutation. -/
def alreadyBound (st : ProcessorState) (svcId wlId : Nat) : Bool :=
  match findA st.serviceMap svcId with
  | some sv =>
    (List.range sv.endpointCount).any (fun i => findA st.endpointMap (svcId, i + 1) == wlId)
  | none => false

/-- Modelled from the spec: a newly present membership is bound through the
Endpoint Index when the service is known; a membership whose service has
not arrived yet is left pending in the workload cache. -/
def addMembership (st : ProcessorState) (wlId : Nat) (name : String) : ProcessorState :=
  if (findA st.serviceCache name).isSome then
    match findA st.strToNum name with
    | some svcId => if alreadyBound st svcId wlId then st else endpointAppend st svcId wlId
    | none => st
  else st

/-- Modelled from the spec: a newly absent membership removes the backend
from the service's endpoint slots. -/
def dropMembership (st : ProcessorState) (wlId : Nat) (name : String) : ProcessorState :=
  match findA st.strToNum name with
  | some svcId => endpointRemove st svcId wlId
  | none => st

/-- One step of the pending-membership walk of the workload cache done by
handleService for a first-time service: a cached STANDARD workload that
lists the service and is not yet bound is appended. -/
def bindOne (svcId : Nat) (svcName : String) (st : ProcessorState) (p : String × Workload) :
    ProcessorState :=
  if p.2.networkMode = NetworkMode.hostNetwork then st
  else if (findA p.2.services svcName).isSome then
    match findA st.strToNum p.2.uid with
    | some wlId => if alreadyBound st svcId wlId then st else endpointAppend st svcId wlId
    | none => st
  else st

/-- Modelled from the spec, section 4.5 step 4: walk the workload cache and
bind the deferred (pending) backends of a first-time service. -/
def bindPending (st : ProcessorState) (svcId : Nat) (svcName : String) : ProcessorState :=
  st.workloadByUid.foldl (bindOne svcId svcName) st

/-- A service whose waypoint destination is one of its own addresses is a
waypoint service pointing at itself; its waypoint is cleared.  Modelled
from the test fixture (Test_handleWorkload step 6), which the spec omits. -/
def clearSelfWaypoint (svc : Service) : Service :=
  match svc.waypoint with
  | some gw => if gw.addr ∈ svc.addresses then { svc with waypoint := none } else svc
  | none => svc

/-- Registry resolution plus a frontend upsert for every VIP of a service. -/
def svcFrontStage (st : ProcessorState) (svc : Service) : ProcessorState :=
  { registerName st svc.resourceName with
    frontend := svc.addresses.foldl
      (fun m a => insertA m a (idOfName st svc.resourceName)) st.frontend }

/-- Write the service value; an existing endpoint count survives. -/
def svcWriteStage (st : ProcessorState) (svc : Service) (svcId : Nat) : ProcessorState :=
  { st with serviceMap := insertA st.serviceMap svcId (serviceValueOf svc (oldCountOf st svcId)) }

/-- For a first-time service (not yet cached) bind the pending backends. -/
def svcBindStage (st : ProcessorState) (svc : Service) (svcId : Nat) : ProcessorState :=
  if (findA st.serviceCache svc.resourceName).isSome then st
  else bindPending st svcId svc.resourceName

/-- Store the service in the service cache. -/
def cacheSvc (st : ProcessorState) (svc : Service) : ProcessorState :=
  { st with serviceCache := insertA st.serviceCache svc.resourceName svc }

/-- Modelled from the spec, section 4.5 handleService: resolve or allocate
the id, upsert a frontend entry per VIP, write the service value, bind
pending backends for a first-time service, and cache the service. -/
def handleServiceCore (st : ProcessorState) (svc : Service) : ProcessorState :=
  cacheSvc
    (svcBindStage
      (svcWriteStage (svcFrontStage st svc) svc (idOfName st svc.resourceName))
      svc (idOfName st svc.resourceName))
    svc

/-- Modelled from the spec, section 4.5 handleService: the self-referential
waypoint of a waypoint service is cleared, then the core path runs. -/
def handleService (st0 : ProcessorState) (svc0 : Service) : ProcessorState :=
  handleServiceCore st0 (clearSelfWaypoint svc0)

/-- The membership names of the cached prior copy of a workload. -/
def oldNamesOf (st : ProcessorState) (uid : String) : List String :=
  match findA st.workloadByUid uid with
  | some old => old.services.map Prod.fst
  | none => []

/-- Modelled from the spec, section 4.5 step 5: apply the
service-membership diff, binding newly present names and removing newly
absent ones. -/
def membershipDiffApply (st : ProcessorState) (wlId : Nat) (oldNames newNames : List String) :
    ProcessorState :=
  oldNames.foldl
    (fun s name => if name ∈ newNames then s else dropMembership s wlId name)
    (newNames.foldl
      (fun s name => if name ∈ oldNames then s else addMembership s wlId name) st)

/-- Registry resolution plus frontend entries for every address of a
STANDARD workload and its backend record. -/
def wlMapsStage (st : ProcessorState) (wl : Workload) : ProcessorState :=
  { registerName st wl.uid with
    frontend := wl.addresses.foldl (fun m a => insertA m a (idOfName st wl.uid)) st.frontend
    backendMap := insertA st.backendMap (idOfName st wl.uid) (backendValueOf wl) }

/-- Replace the workload's rows in both userspace caches. -/
def cacheWl (st : ProcessorState) (wl : Workload) : ProcessorState :=
  { st with
    workloadByUid := insertA st.workloadByUid wl.uid wl
    workloadByAddr := wl.addresses.foldl
      (fun m a => insertA m (wl.network, a) wl) st.workloadByAddr }

/-- The STANDARD-mode path of handleWorkload: maps, membership diff, caches. -/
def handleWorkloadStd (st : ProcessorState) (wl : Workload) : ProcessorState :=
  cacheWl
    (membershipDiffApply (wlMapsStage st wl) (idOfName st wl.uid) (oldNamesOf st wl.uid)
      (wl.services.map Prod.fst))
    wl

/-- Modelled from the spec, section 4.5 handleWorkload: a HOST_NETWORK
workload is stored in the by-UID cache only; a STANDARD workload gets its
id, frontend entries for all addresses, a backend record, the
service-membership diff against the prior cached copy, and both cache
rows. -/
def handleWorkload (st0 : ProcessorState) (wl : Workload) : ProcessorState :=
  if wl.networkMode = NetworkMode.hostNetwork then
    { st0 with workloadByUid := insertA st0.workloadByUid wl.uid wl }
  else handleWorkloadStd st0 wl

/-- The kernel-table and registry deletions of a service removal: the dense
endpoint slots 1..count, the service row, the VIP frontend entries and the
registry binding, plus the service-cache row. -/
def removeServiceBody (st : ProcessorState) (name : String) (svc : Service) (svcId : Nat) :
    ProcessorState :=
  { st with
    endpointMap := (List.range (oldCountOf st svcId)).foldl
      (fun m i => eraseA m (svcId, i + 1)) st.endpointMap
    serviceMap := eraseA st.serviceMap svcId
    frontend := svc.addresses.foldl (fun m a => eraseA m a) st.frontend
    strToNum := eraseA st.strToNum name
    serviceCache := eraseA st.serviceCache name }

/-- Modelled from the spec: removing a service deletes its dense endpoint
slots, its service-table row, its frontend entries, its registry binding
and its cache row; backend rows are untouched. -/
def removeServiceResource (st : ProcessorState) (name : String) : ProcessorState :=
  match findA st.serviceCache name with
  | none => st
  | some svc =>
    match findA st.strToNum name with
    | none => { st with serviceCache := eraseA st.serviceCache name }
    | some svcId => removeServiceBody st name svc svcId

/-- The kernel-table and registry deletions of a workload removal: one
Endpoint-Index removal per membership, then the frontend entries, the
backend row and the registry binding. -/
def removeWorkloadMaps (st : ProcessorState) (wl : Workload) (uid : String) (wlId : Nat) :
    ProcessorState :=
  let sta := wl.services.foldl
    (fun s (p : String × List PortPair) => dropMembership s wlId p.1) st
  { sta with
    frontend := wl.addresses.foldl (fun m a => eraseA m a) sta.frontend
    backendMap := eraseA sta.backendMap wlId
    strToNum := eraseA sta.strToNum uid }

/-- Drop a removed workload's rows from both userspace caches. -/
def removeWlCaches (st : ProcessorState) (wl : Workload) (uid : String) : ProcessorState :=
  { st with
    workloadByUid := eraseA st.workloadByUid uid
    workloadByAddr := wl.addresses.foldl
      (fun m a => eraseA m (wl.network, a)) st.workloadByAddr }

/-- Modelled from the spec: removing a workload removes it from each
service it belonged to through the Endpoint Index, then deletes its
frontend entries, backend row, registry binding and cache rows. -/
def removeWorkloadResource (st : ProcessorState) (uid : String) : ProcessorState :=
  match findA st.workloadByUid uid with
  | none => st
  | some wl =>
    match findA st.strToNum uid with
    | none => removeWlCaches st wl uid
    | some wlId => removeWlCaches (removeWorkloadMaps st wl uid wlId) wl uid

/-- Modelled from the spec: each removed resource name is looked up in both
caches; a service name runs the service removal, a workload uid the
workload removal, an unknown name is ignored. -/
def handleRemovedAddresses (st0 : ProcessorState) (names : List String) : ProcessorState :=
  names.foldl
    (fun st name =>
      if (findA st.serviceCache name).isSome then removeServiceResource st name
      else if (findA st.workloadByUid name).isSome then removeWorkloadResource st name
      else st) st0

/-- A shadow endpoint entry is stale after the first post-restart snapshot
when its backend id is bound to no name, to a name missing from the
snapshot, or to a workload that no longer lists the slot's service. -/
def staleShadowEntry (st : ProcessorState) (kept : List String) (svcId b : Nat) : Bool :=
  match nameOfId st b with
  | none => true
  | some uid =>
    if uid ∈ kept then
      match findA st.workloadByUid uid, nameOfId st svcId with
      | some wl, some svcName => (findA wl.services svcName).isNone
      | _, _ => true
    else true

/-- Modelled from the spec, section 4.6 step 6: after the first snapshot
stale endpoint slots found through the shadow snapshot are removed with
compaction; then every kernel-table entry whose id is bound to a name not
in the snapshot is removed along with the registry binding. -/
def pruneStale (st0 : ProcessorState) (kept : List String) : ProcessorState :=
  let st1 := st0.endpointShadow.foldl
    (fun st e => if staleShadowEntry st kept e.1.1 e.2 then endpointRemove st e.1.1 e.2 else st)
    st0
  let dead := st1.strToNum.filter (fun p => decide (¬ p.1 ∈ kept))
  dead.foldl
    (fun st p =>
      { st with
        frontend := st.frontend.filter (fun q => decide (q.2 ≠ p.2))
        backendMap := eraseA st.backendMap p.2
        serviceMap := eraseA st.serviceMap p.2
        endpointMap := st.endpointMap.filter (fun q => decide (q.1.1 ≠ p.2))
        strToNum := eraseA st.strToNum p.1 }) st1

/-- A delta-discovery resource: a tagged union of workload and service. -/
inductive AddressRes where
  | wlA (w : Workload)
  | svcA (s : Service)

/-- The resource name carried by an address: uid for workloads, the
namespace/hostname resource name for services. -/
def nameOfAddress : AddressRes → String
  | .wlA w => w.uid
  | .svcA s => s.resourceName

/-- Modelled from the spec: dispatch each resource of a delta response on
its tag, then apply the removals; when the restart marker is set the first
response is a full snapshot, after which stale state is pruned and the
marker cleared. -/
def handleAddressTypeResponse (st0 : ProcessorState) (resources : List AddressRes)
    (removed : List String) : ProcessorState :=
  let st1 := resources.foldl
    (fun st r =>
      match r with
      | AddressRes.wlA w => handleWorkload st w
      | AddressRes.svcA s => handleService st s) st0
  let st2 := handleRemovedAddresses st1 removed
  if st2.restart then
    let st3 := pruneStale st2 (resources.map nameOfAddress)
    { st3 with restart := false, endpointShadow := [] }
  else st2

/-- Modelled from the spec, section 4.6: a dataplane restart keeps the
kernel tables and the persisted registry, empties the userspace caches,
sets the restart marker and snapshots the endpoint keys into the shadow. -/
def restartProcessor (st : ProcessorState) : ProcessorState :=
  { st with
    workloadByUid := []
    workloadByAddr := []
    serviceCache := []
    restart := true
    endpointShadow := st.endpointMap }

/-- A steady-state control-plane event. -/
inductive Event where
  | svcUpsert (svc : Service)
  | wlUpsert (wl : Workload)
  | removeAddrs (names : List String)

/-- Apply one event to the processor state. -/
def applyEvent (st : ProcessorState) : Event → ProcessorState
  | .svcUpsert s => handleService st s
  | .wlUpsert w => handleWorkload st w
  | .removeAddrs ns => handleRemovedAddresses st ns

/-- Apply a sequence of events in order. -/
def applyEvents (st : ProcessorState) (evs : List Event) : ProcessorState :=
  evs.foldl applyEvent st

/-! Test fixtures, taken from the repository's test file. -/

/-- The port list shared by all test fixtures. -/
def testPorts : List PortPair := [⟨80, 8080⟩, ⟨81, 8180⟩, ⟨82, 82⟩]

/-- Resource name of a test service, namespace default. -/
def svcResName (s : String) : String := "default/" ++ s ++ ".default.svc.cluster.local"

/-- The testsvc fixture of Test_handleWorkload: one VIP and a waypoint. -/
def testSvc : Service :=
  { resourceName := svcResName "testsvc", addresses := [[10, 240, 10, 1]], ports := testPorts,
    waypoint := some ⟨[10, 240, 10, 2], 15008⟩ }

/-- First test workload at 1.2.3.4 with membership testsvc. -/
def testWl1 : Workload :=
  { uid := "cluster0/wl1", addresses := [[1, 2, 3, 4]], network := "testnetwork",
    networkMode := .standard, waypoint := none,
    services := [(svcResName "testsvc", testPorts)] }

/-- Second test workload at 1.2.3.5 with membership testsvc. -/
def testWl2 : Workload :=
  { uid := "cluster0/wl2", addresses := [[1, 2, 3, 5]], network := "testnetwork",
    networkMode := .standard, waypoint := none,
    services := [(svcResName "testsvc", testPorts)] }

/-- testWl2 with only its waypoint changed (non-membership attribute). -/
def testWl2Way : Workload := { testWl2 with waypoint := some ⟨[10, 10, 10, 10], 15008⟩ }

/-- testWl1 re-upserted with all memberships dropped. -/
def testWl1Drop : Workload := { testWl1 with services := [] }

/-- The namespace-scoped waypoint service whose waypoint is its own VIP. -/
def waySvc : Service :=
  { resourceName := svcResName "waypoint", addresses := [[10, 240, 10, 5]], ports := testPorts,
    waypoint := some ⟨[10, 240, 10, 5], 15008⟩ }

/-- State after upserting testsvc. -/
def stepSvc : ProcessorState := handleService initState testSvc

/-- State after additionally upserting the first workload. -/
def stepWl1 : ProcessorState := handleWorkload stepSvc testWl1

/-- State after additionally upserting the second workload. -/
def stepWl2 : ProcessorState := handleWorkload stepWl1 testWl2

/-- State after the non-membership waypoint update of the second workload. -/
def stepWl2Way : ProcessorState := handleWorkload stepWl2 testWl2Way

/-- State after the first workload dropped its membership. -/
def stepDrop : ProcessorState := handleWorkload stepWl2Way testWl1Drop

/-- A service with the two VIPs named by the basic-add scenario. -/
def basicSvc : Service :=
  { resourceName := svcResName "testsvc",
    addresses := [[10, 240, 10, 1], [10, 240, 10, 2]], ports := testPorts,
    waypoint := some ⟨[10, 240, 10, 200], 15008⟩ }

/-- The STANDARD workload at 1.2.3.4 whose membership lists that service. -/
def basicWl : Workload :=
  { uid := "cluster0/wl1", addresses := [[1, 2, 3, 4]], network := "testnetwork",
    networkMode := .standard, waypoint := none,
    services := [(svcResName "testsvc", testPorts)] }

/-- State after the basic-add scenario: service upsert then workload upsert. -/
def basicState : ProcessorState := handleWorkload (handleService initState basicSvc) basicWl

/-! Restart-scenario fixtures, from TestRestart. -/

/-- UID of a test workload, cluster0 pod in namespace default. -/
def wlUid (n : String) : String := "cluster0//Pod/default/" ++ n

/-- A test service with one VIP and the shared namespace waypoint. -/
def mkSvc (name : String) (ip : IPAddr) : Service :=
  { resourceName := svcResName name, addresses := [ip], ports := testPorts,
    waypoint := some ⟨[10, 240, 10, 200], 15008⟩ }

/-- A STANDARD test workload with one address and the given memberships. -/
def mkWl (name : String) (ip : IPAddr) (svcs : List String) : Workload :=
  { uid := wlUid name, addresses := [ip], network := "testnetwork",
    networkMode := .standard, waypoint := none,
    services := svcs.map (fun s => (svcResName s, testPorts)) }

/-- The first (pre-restart) full response: three services, three workloads. -/
def restartRes1 : List AddressRes :=
  [.svcA (mkSvc "svc1" [10, 240, 10, 1]), .svcA (mkSvc "svc2" [10, 240, 10, 2]),
   .svcA (mkSvc "svc3" [10, 240, 10, 3]),
   .wlA (mkWl "wl1" [10, 244, 0, 1] ["svc1", "svc2"]),
   .wlA (mkWl "wl2" [10, 244, 0, 2] ["svc2", "svc3"]),
   .wlA (mkWl "wl3" [10, 244, 0, 3] ["svc3"])]

/-- The first post-restart snapshot: wl1 shrank to svc1, wl2 grew to three
services, wl3 is absent, wl4 and svc4 are new. -/
def restartRes2 : List AddressRes :=
  [.wlA (mkWl "wl1" [10, 244, 0, 1] ["svc1"]),
   .wlA (mkWl "wl2" [10, 244, 0, 2] ["svc2", "svc3", "svc1"]),
   .wlA (mkWl "wl4" [10, 244, 0, 4] ["svc4"]),
   .svcA (mkSvc "svc1" [10, 240, 10, 1]), .svcA (mkSvc "svc2" [10, 240, 10, 2]),
   .svcA (mkSvc "svc3" [10, 240, 10, 3]), .svcA (mkSvc "svc4" [10, 240, 10, 4])]

/-- State after the pre-restart response is committed. -/
def preRestartState : ProcessorState := handleAddressTypeResponse initState restartRes1 []

/-- State after restart and the first full snapshot, including the prune. -/
def postRestartState : ProcessorState :=
  handleAddressTypeResponse (restartProcessor preRestartState) restartRes2 []

/-! Generic fold lemmas. -/

theorem foldl_pres {σ α : Type} {P : σ → Prop} {f : σ → α → σ}
    (h : ∀ s a, P s → P (f s a)) :
    ∀ (l : List α) (s : σ), P s → P (l.foldl f s) := by
  intro l
  induction l with
  | nil => intro s hs; exact hs
  | cons x xs ih => intro s hs; exact ih (f s x) (h s x hs)

theorem foldl_congr_id {σ α : Type} {f : σ → α → σ} :
    ∀ (l : List α) (s : σ), (∀ s' a, a ∈ l → f s' a = s') → l.foldl f s = s := by
  intro l
  induction l with
  | nil => intro s _; rfl
  | cons x xs ih =>
    intro s h
    have hx : f s x = s := h s x (List.mem_cons_self x xs)
    rw [List.foldl_cons, hx]
    exact ih s (fun s' a ha => h s' a (List.mem_cons_of_mem x ha))

theorem findA_foldl_insertA_not_mem {α β : Type} [DecidableEq α] {v : β} :
    ∀ (l : List α) (m : List (α × β)) (a : α), a ∉ l →
      findA (l.foldl (fun m x => insertA m x v) m) a = findA m a := by
  intro l
  induction l with
  | nil => intro m a _; rfl
  | cons x xs ih =>
    intro m a ha
    have hax : a ≠ x := fun h => ha (h ▸ List.mem_cons_self x xs)
    have haxs : a ∉ xs := fun h => ha (List.mem_cons_of_mem x h)
    rw [List.foldl_cons, ih (insertA m x v) a haxs, findA_insertA_ne m x a v hax]

theorem findA_foldl_insertA_mem {α β : Type} [DecidableEq α] {v : β} :
    ∀ (l : List α) (m : List (α × β)) (a : α), a ∈ l →
      findA (l.foldl (fun m x => insertA m x v) m) a = some v := by
  intro l
  induction l with
  | nil => intro m a ha; cases ha
  | cons x xs ih =>
    intro m a ha
    by_cases hxs : a ∈ xs
    · rw [List.foldl_cons]; exact ih (insertA m x v) a hxs
    · have hax : a = x := by
        rcases List.mem_cons.mp ha with h | h
        · exact h
        · exact absurd h hxs
      rw [List.foldl_cons, findA_foldl_insertA_not_mem xs (insertA m x v) a hxs, hax,
        findA_insertA_self]

theorem findA_foldl_eraseA_not_mem {α β : Type} [DecidableEq α] :
    ∀ (l : List α) (m : List (α × β)) (a : α), a ∉ l →
      findA (l.foldl (fun m x => eraseA m x) m) a = findA m a := by
  intro l
  induction l with
  | nil => intro m a _; rfl
  | cons x xs ih =>
    intro m a ha
    have hax : a ≠ x := fun h => ha (h ▸ List.mem_cons_self x xs)
    have haxs : a ∉ xs := fun h => ha (List.mem_cons_of_mem x h)
    rw [List.foldl_cons, ih (eraseA m x) a haxs, findA_eraseA_ne m x a hax]

theorem findA_foldl_eraseA_mem {α β : Type} [DecidableEq α] :
    ∀ (l : List α) (m : List (α × β)) (a : α), a ∈ l →
      findA (l.foldl (fun m x => eraseA m x) m) a = none := by
  intro l
  induction l with
  | nil => intro m a ha; cases ha
  | cons x xs ih =>
    intro m a ha
    by_cases hxs : a ∈ xs
    · rw [List.foldl_cons]; exact ih (eraseA m x) a hxs
    · have hax : a = x := by
        rcases List.mem_cons.mp ha with h | h
        · exact h
        · exact absurd h hxs
      rw [List.foldl_cons, findA_foldl_eraseA_not_mem xs (eraseA m x) a hxs, hax,
        findA_eraseA_self]

theorem findA_foldl_eraseSlots (svcId : Nat) :
    ∀ (n : Nat) (m : List ((Nat × Nat) × Nat)) (s k : Nat),
      findA ((List.range n).foldl (fun m i => eraseA m (svcId, i + 1)) m) (s, k) =
        if s = svcId ∧ 1 ≤ k ∧ k ≤ n then none else findA m (s, k) := by
  intro n
  induction n with
  | zero =>
    intro m s k
    have h0 : ¬ (s = svcId ∧ 1 ≤ k ∧ k ≤ 0) := by rintro ⟨_, h1, h2⟩; omega
    simp only [List.range_zero, List.foldl_nil, if_neg h0]
  | succ n ih =>
    intro m s k
    rw [List.range_succ, List.foldl_append, List.foldl_cons, List.foldl_nil, findA_eraseA, ih]
    by_cases hpair : (s, k) = (svcId, n + 1)
    · have hs : s = svcId := congrArg Prod.fst hpair
      have hk : k = n + 1 := congrArg Prod.snd hpair
      have hc : s = svcId ∧ 1 ≤ k ∧ k ≤ n + 1 := ⟨hs, by omega, by omega⟩
      rw [if_pos hpair, if_pos hc]
    · rw [if_neg hpair]
      by_cases hcn : s = svcId ∧ 1 ≤ k ∧ k ≤ n
      · have hc : s = svcId ∧ 1 ≤ k ∧ k ≤ n + 1 := ⟨hcn.1, hcn.2.1, by omega⟩
        rw [if_pos hcn, if_pos hc]
      · have hc : ¬ (s = svcId ∧ 1 ≤ k ∧ k ≤ n + 1) := by
          rintro ⟨hs, h1, h2⟩
          rcases Nat.lt_or_ge k (n + 1) with hlt | hge
          · exact hcn ⟨hs, h1, by omega⟩
          · have hk : k = n + 1 := by omega
            exact hpair (by rw [hs, hk])
        rw [if_neg hcn, if_neg hc]

/-- The parts of the state the Endpoint Index operations never touch. -/
def NonEndpointFrame (st st' : ProcessorState) : Prop :=
  st'.strToNum = st.strToNum ∧ st'.nextId = st.nextId ∧ st'.frontend = st.frontend ∧
  st'.backendMap = st.backendMap ∧ st'.workloadByUid = st.workloadByUid ∧
  st'.workloadByAddr = st.workloadByAddr ∧ st'.serviceCache = st.serviceCache

theorem nonEndpointFrame_refl (st : ProcessorState) : NonEndpointFrame st st :=
  ⟨rfl, rfl, rfl, rfl, rfl, rfl, rfl⟩

theorem nonEndpointFrame_trans {s1 s2 s3 : ProcessorState}
    (h1 : NonEndpointFrame s1 s2) (h2 : NonEndpointFrame s2 s3) : NonEndpointFrame s1 s3 := by
  obtain ⟨a1, b1, c1, d1, e1, f1, g1⟩ := h1
  obtain ⟨a2, b2, c2, d2, e2, f2, g2⟩ := h2
  exact ⟨a2.trans a1, b2.trans b1, c2.trans c1, d2.trans d1, e2.trans e1, f2.trans f1,
    g2.trans g1⟩

theorem endpointAppend_frame (st : ProcessorState) (svcId b : Nat) :
    NonEndpointFrame st (endpointAppend st svcId b) := by
  unfold endpointAppend
  split
  · exact nonEndpointFrame_refl st
  · exact ⟨rfl, rfl, rfl, rfl, rfl, rfl, rfl⟩

theorem endpointRemove_frame (st : ProcessorState) (svcId b : Nat) :
    NonEndpointFrame st (endpointRemove st svcId b) := by
  unfold endpointRemove
  split
  · exact nonEndpointFrame_refl st
  · split
    · exact nonEndpointFrame_refl st
    · exact ⟨rfl, rfl, rfl, rfl, rfl, rfl, rfl⟩

theorem addMembership_frame (st : ProcessorState) (wlId : Nat) (name : String) :
    NonEndpointFrame st (addMembership st wlId name) := by
  unfold addMembership
  split
  · split
    · split
      · exact nonEndpointFrame_refl st
      · exact endpointAppend_frame st _ wlId
    · exact nonEndpointFrame_refl st
  · exact nonEndpointFrame_refl st

theorem dropMembership_frame (st : ProcessorState) (wlId : Nat) (name : String) :
    NonEndpointFrame st (dropMembership st wlId name) := by
  unfold dropMembership
  split
  · exact endpointRemove_frame st _ wlId
  · exact nonEndpointFrame_refl st

theorem bindOne_frame (svcId : Nat) (svcName : String) (st : ProcessorState)
    (p : String × Workload) : NonEndpointFrame st (bindOne svcId svcName st p) := by
  unfold bindOne
  split
  · exact nonEndpointFrame_refl st
  · split
    · split
      · split
        · exact nonEndpointFrame_refl st
        · exact endpointAppend_frame st svcId _
      · exact nonEndpointFrame_refl st
    · exact nonEndpointFrame_refl st

theorem foldl_frame {α : Type} {f : ProcessorState → α → ProcessorState}
    (h : ∀ s a, NonEndpointFrame s (f s a)) :
    ∀ (l : List α) (st : ProcessorState), NonEndpointFrame st (l.foldl f st) := by
  intro l
  induction l with
  | nil => intro st; exact nonEndpointFrame_refl st
  | cons x xs ih =>
    intro st
    exact nonEndpointFrame_trans (h st x) (ih (f st x))

/-! Characterisation of the slot search. -/

theorem findSlot_none_of (ep : List ((Nat × Nat) × Nat)) (s b : Nat) :
    ∀ n, (∀ j, 1 ≤ j → j ≤ n → findA ep (s, j) ≠ some b) → findSlot ep s b n = none := by
  intro n
  induction n with
  | zero => intro _; rfl
  | succ n ih =>
    intro h
    have hn : findSlot ep s b n = none := ih (fun j h1 h2 => h j h1 (Nat.le_succ_of_le h2))
    rw [findSlot, hn]
    simp only
    rw [if_neg (h (n + 1) (by omega) (by omega))]

theorem findSlot_some_of (ep : List ((Nat × Nat) × Nat)) (s b : Nat) :
    ∀ n k, 1 ≤ k → k ≤ n → findA ep (s, k) = some b →
      (∀ j, 1 ≤ j → j < k → findA ep (s, j) ≠ some b) → findSlot ep s b n = some k := by
  intro n
  induction n with
  | zero => intro k h1 h2 _ _; omega
  | succ n ih =>
    intro k h1 h2 hk hmin
    by_cases hkn : k ≤ n
    · rw [findSlot, ih k h1 hkn hk hmin]
    · have hk1 : k = n + 1 := by omega
      have hnone : findSlot ep s b n = none :=
        findSlot_none_of ep s b n (fun j hj1 hj2 => hmin j hj1 (by omega))
      rw [findSlot, hnone]
      simp only
      rw [hk1] at hk
      rw [if_pos hk, hk1]

theorem membershipDiffApply_frame (st : ProcessorState) (wlId : Nat)
    (oldNames newNames : List String) :
    NonEndpointFrame st (membershipDiffApply st wlId oldNames newNames) := by
  unfold membershipDiffApply
  have h1 : NonEndpointFrame st
      (newNames.foldl (fun s name => if name ∈ oldNames then s else addMembership s wlId name)
        st) := by
    apply foldl_frame
    intro s a
    split
    · exact nonEndpointFrame_refl s
    · exact addMembership_frame s wlId a
  have h2 : NonEndpointFrame
      (newNames.foldl (fun s name => if name ∈ oldNames then s else addMembership s wlId name) st)
      (oldNames.foldl (fun s name => if name ∈ newNames then s else dropMembership s wlId name)
        (newNames.foldl (fun s name => if name ∈ oldNames then s else addMembership s wlId name)
          st)) := by
    apply foldl_frame
    intro s a
    split
    · exact nonEndpointFrame_refl s
    · exact dropMembership_frame s wlId a
  exact nonEndpointFrame_trans h1 h2

theorem bindPending_frame (st : ProcessorState) (svcId : Nat) (svcName : String) :
    NonEndpointFrame st (bindPending st svcId svcName) :=
  foldl_frame (fun s p => bindOne_frame svcId svcName s p) st.workloadByUid st

theorem handleWorkloadStd_frontend (st : ProcessorState) (wl : Workload) :
    (handleWorkloadStd st wl).frontend =
      wl.addresses.foldl (fun m a => insertA m a (idOfName st wl.uid)) st.frontend :=
  (membershipDiffApply_frame (wlMapsStage st wl) (idOfName st wl.uid) (oldNamesOf st wl.uid)
    (wl.services.map Prod.fst)).2.2.1

theorem handleWorkloadStd_backend (st : ProcessorState) (wl : Workload) :
    (handleWorkloadStd st wl).backendMap =
      insertA st.backendMap (idOfName st wl.uid) (backendValueOf wl) :=
  (membershipDiffApply_frame (wlMapsStage st wl) (idOfName st wl.uid) (oldNamesOf st wl.uid)
    (wl.services.map Prod.fst)).2.2.2.1

theorem handleWorkloadStd_byUid (st : ProcessorState) (wl : Workload) :
    (handleWorkloadStd st wl).workloadByUid = insertA st.workloadByUid wl.uid wl := by
  show insertA (membershipDiffApply (wlMapsStage st wl) (idOfName st wl.uid)
      (oldNamesOf st wl.uid) (wl.services.map Prod.fst)).workloadByUid wl.uid wl =
    insertA st.workloadByUid wl.uid wl
  rw [(membershipDiffApply_frame (wlMapsStage st wl) (idOfName st wl.uid) (oldNamesOf st wl.uid)
    (wl.services.map Prod.fst)).2.2.2.2.1]
  rfl

theorem handleWorkloadStd_strToNum (st : ProcessorState) (wl : Workload) :
    (handleWorkloadStd st wl).strToNum = (registerName st wl.uid).strToNum :=
  (membershipDiffApply_frame (wlMapsStage st wl) (idOfName st wl.uid) (oldNamesOf st wl.uid)
    (wl.services.map Prod.fst)).1

theorem handleWorkloadStd_serviceCache (st : ProcessorState) (wl : Workload) :
    (handleWorkloadStd st wl).serviceCache = st.serviceCache :=
  (membershipDiffApply_frame (wlMapsStage st wl) (idOfName st wl.uid) (oldNamesOf st wl.uid)
    (wl.services.map Prod.fst)).2.2.2.2.2.2

/-- C6: a frontend entry for a workload address exists after the upsert iff
the network mode is STANDARD; a HOST_NETWORK workload leaves frontend,
backend, endpoint tables and the by-address cache untouched and is stored
in the by-UID cache. -/
theorem frontend_iff_standard_mode (st : ProcessorState) (wl : Workload) (a : IPAddr)
    (ha : a ∈ wl.addresses) (hnone : findA st.frontend a = none) :
    (((findA (handleWorkload st wl).frontend a).isSome = true) ↔
      wl.networkMode = NetworkMode.standard) ∧
    (wl.networkMode = NetworkMode.hostNetwork →
      (handleWorkload st wl).frontend = st.frontend ∧
      (handleWorkload st wl).backendMap = st.backendMap ∧
      (handleWorkload st wl).endpointMap = st.endpointMap ∧
      (handleWorkload st wl).workloadByAddr = st.workloadByAddr ∧
      findA (handleWorkload st wl).workloadByUid wl.uid = some wl) := by
  cases hm : wl.networkMode with
  | hostNetwork =>
    have hw : handleWorkload st wl =
        { st with workloadByUid := insertA st.workloadByUid wl.uid wl } := by
      unfold handleWorkload
      rw [hm]
      simp
    rw [hw]
    refine ⟨?_, fun _ => ⟨rfl, rfl, rfl, rfl, findA_insertA_self _ _ _⟩⟩
    constructor
    · intro hsome
      exfalso
      have : findA st.frontend a = none := hnone
      rw [show ({ st with workloadByUid := insertA st.workloadByUid wl.uid wl }
            : ProcessorState).frontend = st.frontend from rfl, this] at hsome
      simp at hsome
    · intro hstd
      exact NetworkMode.noConfusion hstd
  | standard =>
    have hw : handleWorkload st wl = handleWorkloadStd st wl := by
      unfold handleWorkload
      rw [hm]
      simp
    rw [hw]
    refine ⟨?_, fun hhost => NetworkMode.noConfusion hhost⟩
    rw [handleWorkloadStd_frontend, findA_foldl_insertA_mem wl.addresses st.frontend a ha]
    simp

/-- C6 witness: a concrete HOST_NETWORK workload at 1.2.3.6 upserted into
the initial state. -/
theorem frontend_iff_standard_mode_witness :
    (((findA (handleWorkload initState
        { uid := "cluster0/whost", addresses := [[1, 2, 3, 6]], network := "testnetwork",
          networkMode := .hostNetwork, waypoint := none,
          services := [(svcResName "testsvc", testPorts)] }).frontend [1, 2, 3, 6]).isSome
        = true) ↔
      ({ uid := "cluster0/whost", addresses := [[1, 2, 3, 6]], network := "testnetwork",
          networkMode := .hostNetwork, waypoint := none,
          services := [(svcResName "testsvc", testPorts)] } : Workload).networkMode
        = NetworkMode.standard) ∧
    (({ uid := "cluster0/whost", addresses := [[1, 2, 3, 6]], network := "testnetwork",
          networkMode := .hostNetwork, waypoint := none,
          services := [(svcResName "testsvc", testPorts)] } : Workload).networkMode
        = NetworkMode.hostNetwork →
      (handleWorkload initState
        { uid := "cluster0/whost", addresses := [[1, 2, 3, 6]], network := "testnetwork",
          networkMode := .hostNetwork, waypoint := none,
          services := [(svcResName "testsvc", testPorts)] }).frontend = initState.frontend ∧
      (handleWorkload initState
        { uid := "cluster0/whost", addresses := [[1, 2, 3, 6]], network := "testnetwork",
          networkMode := .hostNetwork, waypoint := none,
          services := [(svcResName "testsvc", testPorts)] }).backendMap = initState.backendMap ∧
      (handleWorkload initState
        { uid := "cluster0/whost", addresses := [[1, 2, 3, 6]], network := "testnetwork",
          networkMode := .hostNetwork, waypoint := none,
          services := [(svcResName "testsvc", testPorts)] }).endpointMap = initState.endpointMap ∧
      (handleWorkload initState
        { uid := "cluster0/whost", addresses := [[1, 2, 3, 6]], network := "testnetwork",
          networkMode := .hostNetwork, waypoint := none,
          services := [(svcResName "testsvc", testPorts)] }).workloadByAddr
        = initState.workloadByAddr ∧
      findA (handleWorkload initState
        { uid := "cluster0/whost", addresses := [[1, 2, 3, 6]], network := "testnetwork",
          networkMode := .hostNetwork, waypoint := none,
          services := [(svcResName "testsvc", testPorts)] }).workloadByUid "cluster0/whost"
        = some { uid := "cluster0/whost", addresses := [[1, 2, 3, 6]],
                 network := "testnetwork", networkMode := .hostNetwork, waypoint := none,
                 services := [(svcResName "testsvc", testPorts)] }) :=
  frontend_iff_standard_mode initState
    { uid := "cluster0/whost", addresses := [[1, 2, 3, 6]], network := "testnetwork",
      networkMode := .hostNetwork, waypoint := none,
      services := [(svcResName "testsvc", testPorts)] }
    [1, 2, 3, 6] (by decide) (by decide)

/-- C10: a service whose waypoint destination is one of its own VIPs has
the waypoint cleared: the cached service carries waypoint none, and the
written service value has a zero waypoint address and port, with endpoint
count 0 when no cached workload lists the service. -/
theorem self_waypoint_cleared (st : ProcessorState) (svc : Service) (gw : GatewayAddress)
    (hgw : svc.waypoint = some gw)
    (hmem : gw.addr ∈ svc.addresses)
    (hreg : findA st.strToNum svc.resourceName = none)
    (hsm : findA st.serviceMap st.nextId = none)
    (hsc : findA st.serviceCache svc.resourceName = none)
    (hwl : ∀ p ∈ st.workloadByUid, findA p.2.services svc.resourceName = none) :
    findA (handleService st svc).serviceCache svc.resourceName =
      some { svc with waypoint := none } ∧
    findA (handleService st svc).serviceMap st.nextId =
      some { endpointCount := 0, waypointAddr := zeroIp, waypointPort := 0,
             ports := svc.ports } := by
  have hclear : clearSelfWaypoint svc = { svc with waypoint := none } := by
    unfold clearSelfWaypoint
    rw [hgw]
    simp [hmem]
  have hid : idOfName st svc.resourceName = st.nextId := by
    unfold idOfName
    rw [hreg]
  unfold handleService handleServiceCore
  rw [hclear]
  have hcount : oldCountOf (svcFrontStage st { svc with waypoint := none }) st.nextId = 0 := by
    unfold oldCountOf
    have : findA (svcFrontStage st { svc with waypoint := none }).serviceMap st.nextId = none :=
      hsm
    rw [this]
  have hscW : findA (svcWriteStage (svcFrontStage st { svc with waypoint := none })
      { svc with waypoint := none }
      (idOfName st ({ svc with waypoint := none } : Service).resourceName)).serviceCache
      ({ svc with waypoint := none } : Service).resourceName = none := hsc
  have hbindIf : svcBindStage (svcWriteStage (svcFrontStage st { svc with waypoint := none })
      { svc with waypoint := none }
      (idOfName st ({ svc with waypoint := none } : Service).resourceName))
      { svc with waypoint := none }
      (idOfName st ({ svc with waypoint := none } : Service).resourceName) =
      bindPending (svcWriteStage (svcFrontStage st { svc with waypoint := none })
        { svc with waypoint := none }
        (idOfName st ({ svc with waypoint := none } : Service).resourceName))
        (idOfName st ({ svc with waypoint := none } : Service).resourceName)
        ({ svc with waypoint := none } : Service).resourceName := by
    unfold svcBindStage
    rw [hscW]
    simp
  have hbind : bindPending (svcWriteStage (svcFrontStage st { svc with waypoint := none })
      { svc with waypoint := none }
      (idOfName st ({ svc with waypoint := none } : Service).resourceName))
      (idOfName st ({ svc with waypoint := none } : Service).resourceName)
      ({ svc with waypoint := none } : Service).resourceName =
      svcWriteStage (svcFrontStage st { svc with waypoint := none })
        { svc with waypoint := none }
        (idOfName st ({ svc with waypoint := none } : Service).resourceName) := by
    unfold bindPending
    apply foldl_congr_id
    intro s p hp
    have hp2 : p ∈ st.workloadByUid := hp
    have hx : findA p.2.services ({ svc with waypoint := none } : Service).resourceName = none :=
      hwl p hp2
    unfold bindOne
    rw [hx]
    simp
  rw [hbindIf, hbind]
  constructor
  · exact findA_insertA_self _ _ _
  · have hsv : findA (svcWriteStage (svcFrontStage st { svc with waypoint := none })
        { svc with waypoint := none }
        (idOfName st ({ svc with waypoint := none } : Service).resourceName)).serviceMap
        st.nextId =
        some (serviceValueOf { svc with waypoint := none }
          (oldCountOf (svcFrontStage st { svc with waypoint := none })
            (idOfName st ({ svc with waypoint := none } : Service).resourceName))) := by
      unfold svcWriteStage
      show findA (insertA (svcFrontStage st { svc with waypoint := none }).serviceMap
        (idOfName st ({ svc with waypoint := none } : Service).resourceName)
        (serviceValueOf { svc with waypoint := none } _)) st.nextId = _
      rw [show idOfName st ({ svc with waypoint := none } : Service).resourceName = st.nextId
        from hid]
      exact findA_insertA_self _ _ _
    show findA (svcWriteStage (svcFrontStage st { svc with waypoint := none })
        { svc with waypoint := none }
        (idOfName st ({ svc with waypoint := none } : Service).resourceName)).serviceMap
        st.nextId =
      some { endpointCount := 0, waypointAddr := zeroIp, waypointPort := 0, ports := svc.ports }
    rw [hsv]
    rw [show idOfName st ({ svc with waypoint := none } : Service).resourceName = st.nextId
      from hid, hcount]
    simp [serviceValueOf, gwAddrOf, gwPortOf, convertPortToBigEndian]

/-- C10 witness: the waypoint fixture, whose waypoint is its own VIP,
upserted into the initial state. -/
theorem self_waypoint_cleared_witness :
    findA (handleService initState waySvc).serviceCache waySvc.resourceName =
      some { waySvc with waypoint := none } ∧
    findA (handleService initState waySvc).serviceMap initState.nextId =
      some { endpointCount := 0, waypointAddr := zeroIp, waypointPort := 0,
             ports := waySvc.ports } :=
  self_waypoint_cleared initState waySvc ⟨[10, 240, 10, 5], 15008⟩ (by decide) (by decide)
    (by decide) (by decide) (by decide)
    (fun p hp => absurd hp (List.not_mem_nil p))

/-- C7: removing a service by resource name deletes its VIP frontend
entries, its service-table row and its dense endpoint rows, and leaves the
backend table unchanged; a frontend lookup of a deleted VIP afterwards
misses, which the map facade reports as the not-found error. -/
theorem remove_service_deletes_rows (st : ProcessorState) (name : String) (svc : Service)
    (svcId : Nat) (sv : ServiceValue)
    (hcache : findA st.serviceCache name = some svc)
    (hreg : findA st.strToNum name = some svcId)
    (hsv : findA st.serviceMap svcId = some sv) :
    (∀ a ∈ svc.addresses, findA (handleRemovedAddresses st [name]).frontend a = none) ∧
    findA (handleRemovedAddresses st [name]).serviceMap svcId = none ∧
    (∀ k, 1 ≤ k → k ≤ sv.endpointCount →
      findA (handleRemovedAddresses st [name]).endpointMap (svcId, k) = none) ∧
    (handleRemovedAddresses st [name]).backendMap = st.backendMap := by
  have hstep : handleRemovedAddresses st [name] = removeServiceBody st name svc svcId := by
    unfold handleRemovedAddresses
    rw [List.foldl_cons, List.foldl_nil, hcache]
    simp only [Option.isSome_some, if_true]
    unfold removeServiceResource
    rw [hcache, hreg]
  rw [hstep]
  refine ⟨?_, ?_, ?_, rfl⟩
  · intro a ha
    exact findA_foldl_eraseA_mem svc.addresses st.frontend a ha
  · exact findA_eraseA_self st.serviceMap svcId
  · intro k h1 h2
    have hc : oldCountOf st svcId = sv.endpointCount := by
      unfold oldCountOf
      rw [hsv]
    show findA ((List.range (oldCountOf st svcId)).foldl
      (fun m i => eraseA m (svcId, i + 1)) st.endpointMap) (svcId, k) = none
    rw [findA_foldl_eraseSlots svcId (oldCountOf st svcId) st.endpointMap svcId k,
      if_pos ⟨rfl, h1, by rw [hc]; exact h2⟩]

/-- C7 witness: deleting testsvc after the five-step pipeline of
Test_handleWorkload. -/
theorem remove_service_deletes_rows_witness :
    findA (handleRemovedAddresses stepDrop [svcResName "testsvc"]).frontend
      [10, 240, 10, 1] = none ∧
    findA (handleRemovedAddresses stepDrop [svcResName "testsvc"]).serviceMap 1 = none ∧
    findA (handleRemovedAddresses stepDrop [svcResName "testsvc"]).endpointMap (1, 1) = none ∧
    (handleRemovedAddresses stepDrop [svcResName "testsvc"]).backendMap =
      stepDrop.backendMap := by
  obtain ⟨h1, h2, h3, h4⟩ := remove_service_deletes_rows stepDrop (svcResName "testsvc")
    testSvc 1 ⟨1, [10, 240, 10, 2], 41018, testPorts⟩ (by decide) (by decide) (by decide)
  exact ⟨h1 [10, 240, 10, 1] (by decide), h2, h3 1 (by decide) (by decide), h4⟩

/-- C5: re-upserting a STANDARD workload whose membership names are
unchanged updates its backend record while the endpoint table and the
service table (including every endpoint count) are left untouched. -/
theorem non_membership_update_frame (st : ProcessorState) (wl old : Workload) (wlId : Nat)
    (hmode : wl.networkMode = NetworkMode.standard)
    (hold : findA st.workloadByUid wl.uid = some old)
    (hsame : old.services.map Prod.fst = wl.services.map Prod.fst)
    (hid : findA st.strToNum wl.uid = some wlId) :
    (handleWorkload st wl).endpointMap = st.endpointMap ∧
    (handleWorkload st wl).serviceMap = st.serviceMap ∧
    findA (handleWorkload st wl).backendMap wlId = some (backendValueOf wl) := by
  have hw : handleWorkload st wl = handleWorkloadStd st wl := by
    unfold handleWorkload
    rw [hmode]
    simp
  have holds : oldNamesOf st wl.uid = wl.services.map Prod.fst := by
    unfold oldNamesOf
    rw [hold]
    exact hsame
  have hmda : membershipDiffApply (wlMapsStage st wl) (idOfName st wl.uid)
      (oldNamesOf st wl.uid) (wl.services.map Prod.fst) = wlMapsStage st wl := by
    unfold membershipDiffApply
    rw [holds]
    have h1 : (wl.services.map Prod.fst).foldl
        (fun s name => if name ∈ wl.services.map Prod.fst then s
          else addMembership s (idOfName st wl.uid) name) (wlMapsStage st wl) =
        wlMapsStage st wl :=
      foldl_congr_id _ _ (fun s a ha => by rw [if_pos ha])
    rw [h1]
    exact foldl_congr_id _ _ (fun s a ha => by rw [if_pos ha])
  have hfin : handleWorkloadStd st wl = cacheWl (wlMapsStage st wl) wl := by
    unfold handleWorkloadStd
    rw [hmda]
  rw [hw, hfin]
  refine ⟨rfl, rfl, ?_⟩
  have hidv : idOfName st wl.uid = wlId := by
    unfold idOfName
    rw [hid]
  show findA (insertA st.backendMap (idOfName st wl.uid) (backendValueOf wl)) wlId =
    some (backendValueOf wl)
  rw [hidv]
  exact findA_insertA_self _ _ _

/-- C5 witness: the waypoint-only update of the second test workload. -/
theorem non_membership_update_frame_witness :
    (handleWorkload stepWl2 testWl2Way).endpointMap = stepWl2.endpointMap ∧
    (handleWorkload stepWl2 testWl2Way).serviceMap = stepWl2.serviceMap ∧
    findA (handleWorkload stepWl2 testWl2Way).backendMap 3 =
      some (backendValueOf testWl2Way) :=
  non_membership_update_frame stepWl2 testWl2Way testWl2 3 (by decide) (by decide)
    (by decide) (by decide)

/-- C3: when a workload holding endpoint slot k < n of a service drops its
membership, removal compacts with swap-with-last: the count becomes n-1,
slot k now holds the backend previously at slot n, slot n is deleted, and
the removed workload's backend entry is still present. -/
theorem drop_membership_swaps_last (st : ProcessorState) (wl old : Workload) (sname : String)
    (s wlId k n bn : Nat) (sv : ServiceValue)
    (hmode : wl.networkMode = NetworkMode.standard)
    (hsvcs : wl.services = [])
    (hold : findA st.workloadByUid wl.uid = some old)
    (holdn : old.services.map Prod.fst = [sname])
    (hid : findA st.strToNum wl.uid = some wlId)
    (hsid : findA st.strToNum sname = some s)
    (hsv : findA st.serviceMap s = some sv)
    (hn : sv.endpointCount = n)
    (hk1 : 1 ≤ k) (hkn : k < n)
    (hslotk : findA st.endpointMap (s, k) = some wlId)
    (hmin : ∀ j, 1 ≤ j → j < k → findA st.endpointMap (s, j) ≠ some wlId)
    (hslotn : findA st.endpointMap (s, n) = some bn) :
    (findA (handleWorkload st wl).serviceMap s).map ServiceValue.endpointCount =
      some (n - 1) ∧
    findA (handleWorkload st wl).endpointMap (s, k) = some bn ∧
    findA (handleWorkload st wl).endpointMap (s, n) = none ∧
    (findA (handleWorkload st wl).backendMap wlId).isSome = true := by
  have hw : handleWorkload st wl = handleWorkloadStd st wl := by
    unfold handleWorkload
    rw [hmode]
    simp
  have hidv : idOfName st wl.uid = wlId := by
    unfold idOfName
    rw [hid]
  have hsnum : (wlMapsStage st wl).strToNum = st.strToNum := by
    show (if (findA st.strToNum wl.uid).isSome then st.strToNum
          else insertA st.strToNum wl.uid st.nextId) = st.strToNum
    rw [hid]
    rfl
  have holdnames : oldNamesOf st wl.uid = [sname] := by
    unfold oldNamesOf
    rw [hold]
    exact holdn
  have hfsl : findSlot (wlMapsStage st wl).endpointMap s wlId n = some k :=
    findSlot_some_of st.endpointMap s wlId n k hk1 (le_of_lt hkn) hslotk hmin
  have hswap : epSwap (wlMapsStage st wl).endpointMap s k n =
      insertA st.endpointMap (s, k) bn := by
    unfold epSwap
    rw [if_neg (Nat.ne_of_lt hkn)]
    rw [show findA (wlMapsStage st wl).endpointMap (s, n) = some bn from hslotn]
    rfl
  have hoc : oldCountOf (wlMapsStage st wl) s = n := by
    unfold oldCountOf
    simp only [show findA (wlMapsStage st wl).serviceMap s = some sv from hsv]
    exact hn
  have hrem : endpointRemove (wlMapsStage st wl) s wlId =
      { wlMapsStage st wl with
        endpointMap := eraseA (insertA st.endpointMap (s, k) bn) (s, n)
        serviceMap := insertA st.serviceMap s { sv with endpointCount := n - 1 } } := by
    unfold endpointRemove
    simp only [hoc, hfsl, show findA (wlMapsStage st wl).serviceMap s = some sv from hsv,
      hn, hswap]
    rfl
  have hdrop : dropMembership (wlMapsStage st wl) wlId sname =
      endpointRemove (wlMapsStage st wl) s wlId := by
    unfold dropMembership
    rw [show findA (wlMapsStage st wl).strToNum sname = some s from by rw [hsnum]; exact hsid]
  have hmda : membershipDiffApply (wlMapsStage st wl) (idOfName st wl.uid)
      (oldNamesOf st wl.uid) (wl.services.map Prod.fst) =
      endpointRemove (wlMapsStage st wl) s wlId := by
    unfold membershipDiffApply
    rw [holdnames, hsvcs, hidv]
    simp only [List.map_nil, List.foldl_nil, List.foldl_cons, List.not_mem_nil, if_false]
    rw [hdrop]
  have hstd : handleWorkloadStd st wl =
      cacheWl ({ wlMapsStage st wl with
        endpointMap := eraseA (insertA st.endpointMap (s, k) bn) (s, n)
        serviceMap := insertA st.serviceMap s { sv with endpointCount := n - 1 } }) wl := by
    unfold handleWorkloadStd
    rw [hmda, hrem]
  rw [hw, hstd]
  have hkne : ((s, k) : Nat × Nat) ≠ (s, n) := by
    intro h
    exact Nat.ne_of_lt hkn (congrArg Prod.snd h)
  refine ⟨?_, ?_, ?_, ?_⟩
  · show (findA (insertA st.serviceMap s { sv with endpointCount := n - 1 }) s).map
      ServiceValue.endpointCount = some (n - 1)
    rw [findA_insertA_self]
    rfl
  · show findA (eraseA (insertA st.endpointMap (s, k) bn) (s, n)) (s, k) = some bn
    rw [findA_eraseA_ne _ _ _ hkne, findA_insertA_self]
  · show findA (eraseA (insertA st.endpointMap (s, k) bn) (s, n)) (s, n) = none
    exact findA_eraseA_self _ _
  · show (findA (insertA st.backendMap (idOfName st wl.uid) (backendValueOf wl)) wlId).isSome
      = true
    rw [hidv, findA_insertA_self]
    rfl

/-- C3 witness: the first test workload, holding slot 1 of 2, drops its
membership after the waypoint update of the second workload. -/
theorem drop_membership_swaps_last_witness :
    (findA (handleWorkload stepWl2Way testWl1Drop).serviceMap 1).map
      ServiceValue.endpointCount = some 1 ∧
    findA (handleWorkload stepWl2Way testWl1Drop).endpointMap (1, 1) = some 3 ∧
    findA (handleWorkload stepWl2Way testWl1Drop).endpointMap (1, 2) = none ∧
    (findA (handleWorkload stepWl2Way testWl1Drop).backendMap 2).isSome = true :=
  drop_membership_swaps_last stepWl2Way testWl1Drop testWl1 (svcResName "testsvc")
    1 2 1 2 3 ⟨2, [10, 240, 10, 2], 41018, testPorts⟩
    (by decide) (by decide) (by decide) (by decide) (by decide) (by decide) (by decide)
    (by decide) (by decide) (by decide) (by decide)
    (fun j h1 h2 => absurd (Nat.lt_of_lt_of_le h2 h1) (Nat.lt_irrefl j))
    (by decide)

/-- C8: upserting a STANDARD workload whose only membership names a service
that has not been upserted yet writes its frontend and backend entries,
creates no endpoint entry, and caches the workload; when the service
arrives, handleService binds the pending membership: slot (svcId, 1) holds
the workload id and the endpoint count becomes 1. -/
theorem pending_membership_bound_later (wl : Workload) (sname : String)
    (ports : List PortPair) (svc : Service)
    (hmode : wl.networkMode = NetworkMode.standard)
    (hsvcs : wl.services = [(sname, ports)])
    (hname : svc.resourceName = sname)
    (hneq : wl.uid ≠ sname)
    (hway : clearSelfWaypoint svc = svc) :
    (∀ a ∈ wl.addresses, findA (handleWorkload initState wl).frontend a = some 1) ∧
    findA (handleWorkload initState wl).backendMap 1 = some (backendValueOf wl) ∧
    (handleWorkload initState wl).endpointMap = [] ∧
    findA (handleWorkload initState wl).workloadByUid wl.uid = some wl ∧
    findA (handleService (handleWorkload initState wl) svc).endpointMap (2, 1) = some 1 ∧
    (findA (handleService (handleWorkload initState wl) svc).serviceMap 2).map
      ServiceValue.endpointCount = some 1 := by
  have hw : handleWorkload initState wl = handleWorkloadStd initState wl := by
    unfold handleWorkload
    rw [hmode]
    simp
  have hmda : membershipDiffApply (wlMapsStage initState wl) (idOfName initState wl.uid)
      (oldNamesOf initState wl.uid) (wl.services.map Prod.fst) =
      wlMapsStage initState wl := by
    rw [hsvcs]
    rfl
  have hstd : handleWorkload initState wl = cacheWl (wlMapsStage initState wl) wl := by
    rw [hw]
    unfold handleWorkloadStd
    rw [hmda]
  have hfneq : sname ≠ wl.uid := fun h => hneq h.symm
  have hfs : findA (cacheWl (wlMapsStage initState wl) wl).strToNum svc.resourceName
      = none := by
    rw [hname]
    rw [show (cacheWl (wlMapsStage initState wl) wl).strToNum =
      insertA ([] : List (String × Nat)) wl.uid 1 from rfl]
    rw [findA_insertA_ne [] wl.uid sname 1 hfneq]
    rfl
  have hid2 : idOfName (cacheWl (wlMapsStage initState wl) wl) svc.resourceName = 2 := by
    unfold idOfName
    rw [hfs]
    rfl
  have hstr2 : (svcWriteStage
      (svcFrontStage (cacheWl (wlMapsStage initState wl) wl) svc) svc 2).strToNum =
      insertA (insertA [] wl.uid 1) svc.resourceName 2 := by
    show (if (findA (cacheWl (wlMapsStage initState wl) wl).strToNum svc.resourceName).isSome
      then (cacheWl (wlMapsStage initState wl) wl).strToNum
      else insertA (cacheWl (wlMapsStage initState wl) wl).strToNum svc.resourceName
        (cacheWl (wlMapsStage initState wl) wl).nextId) = _
    rw [hfs]
    rfl
  have hbindred : svcBindStage
      (svcWriteStage (svcFrontStage (cacheWl (wlMapsStage initState wl) wl) svc) svc 2)
      svc 2 =
      endpointAppend
        (svcWriteStage (svcFrontStage (cacheWl (wlMapsStage initState wl) wl) svc) svc 2)
        2 1 := by
    unfold svcBindStage
    rw [show findA (svcWriteStage
      (svcFrontStage (cacheWl (wlMapsStage initState wl) wl) svc) svc 2).serviceCache
      svc.resourceName = none from rfl]
    simp only [Option.isSome_none, Bool.false_eq_true, if_false]
    unfold bindPending
    rw [show (svcWriteStage
      (svcFrontStage (cacheWl (wlMapsStage initState wl) wl) svc) svc 2).workloadByUid =
      [(wl.uid, wl)] from rfl]
    rw [List.foldl_cons, List.foldl_nil]
    unfold bindOne
    simp only [hmode]
    rw [if_neg (fun h => NetworkMode.noConfusion h)]
    rw [show findA wl.services svc.resourceName = some ports from by
      rw [hsvcs, hname]
      exact findA_insertA_self [] sname ports]
    simp only [Option.isSome_some, if_true]
    rw [show findA (svcWriteStage
      (svcFrontStage (cacheWl (wlMapsStage initState wl) wl) svc) svc 2).strToNum wl.uid =
      some 1 from by
        rw [hstr2, hname, findA_insertA_ne (insertA [] wl.uid 1) sname wl.uid 2 hneq]
        exact findA_insertA_self [] wl.uid 1]
    rfl
  have hserv : handleService (cacheWl (wlMapsStage initState wl) wl) svc =
      cacheSvc (endpointAppend
        (svcWriteStage (svcFrontStage (cacheWl (wlMapsStage initState wl) wl) svc) svc 2)
        2 1) svc := by
    unfold handleService handleServiceCore
    rw [hway, hid2, hbindred]
  refine ⟨?_, ?_, ?_, ?_, ?_, ?_⟩
  · intro a ha
    rw [hstd]
    show findA (wl.addresses.foldl
      (fun m a' => insertA m a' (idOfName initState wl.uid)) initState.frontend) a = some 1
    rw [findA_foldl_insertA_mem wl.addresses initState.frontend a ha]
    rfl
  · rw [hstd]
    exact findA_insertA_self initState.backendMap (idOfName initState wl.uid)
      (backendValueOf wl)
  · rw [hstd]
    rfl
  · rw [hstd]
    exact findA_insertA_self initState.workloadByUid wl.uid wl
  · rw [hstd, hserv]
    rfl
  · rw [hstd, hserv]
    rfl

/-- A workload whose only membership names the not-yet-seen service late. -/
def pendWl : Workload :=
  { uid := "cluster0/pend", addresses := [[9, 9, 9, 9]], network := "testnetwork",
    networkMode := .standard, waypoint := none,
    services := [(svcResName "late", testPorts)] }

/-- The late-arriving service fixture. -/
def lateSvc : Service := mkSvc "late" [10, 1, 1, 1]

/-- C8 witness: a workload at 9.9.9.9 referencing the not-yet-seen service
late, which is then upserted. -/
theorem pending_membership_bound_later_witness :
    (∀ a ∈ pendWl.addresses,
      findA (handleWorkload initState pendWl).frontend a = some 1) ∧
    findA (handleWorkload initState pendWl).backendMap 1 = some (backendValueOf pendWl) ∧
    (handleWorkload initState pendWl).endpointMap = [] ∧
    findA (handleWorkload initState pendWl).workloadByUid pendWl.uid = some pendWl ∧
    findA (handleService (handleWorkload initState pendWl) lateSvc).endpointMap (2, 1)
      = some 1 ∧
    (findA (handleService (handleWorkload initState pendWl) lateSvc).serviceMap 2).map
      ServiceValue.endpointCount = some 1 :=
  pending_membership_bound_later pendWl (svcResName "late") testPorts lateSvc
    (by decide) (by decide) (by decide) (by decide) (by decide)

/-! Endpoint density: the C1 invariant and its preservation. -/

/-- A slot (s, k) exists iff service s exists and 1 ≤ k ≤ its endpoint
count: slots form a dense prefix and belong only to live services. -/
def endpointDense (st : ProcessorState) : Prop :=
  ∀ s k, (findA st.endpointMap (s, k)).isSome = true ↔
    ∃ sv, findA st.serviceMap s = some sv ∧ 1 ≤ k ∧ k ≤ sv.endpointCount

theorem endpointDense_congr {st st' : ProcessorState} (h : endpointDense st)
    (hep : st'.endpointMap = st.endpointMap) (hsm : st'.serviceMap = st.serviceMap) :
    endpointDense st' := by
  intro s k
  rw [hep, hsm]
  exact h s k

theorem findSlot_sound (ep : List ((Nat × Nat) × Nat)) (s b : Nat) :
    ∀ n k, findSlot ep s b n = some k → 1 ≤ k ∧ k ≤ n ∧ findA ep (s, k) = some b := by
  intro n
  induction n with
  | zero => intro k h; cases h
  | succ n ih =>
    intro k h
    rw [findSlot] at h
    cases hfs : findSlot ep s b n with
    | some k2 =>
      rw [hfs] at h
      have hk : k2 = k := Option.some.inj h
      obtain ⟨h1, h2, h3⟩ := ih k2 hfs
      rw [hk] at h1 h2 h3
      exact ⟨h1, Nat.le_succ_of_le h2, h3⟩
    | none =>
      rw [hfs] at h
      by_cases hc : findA ep (s, n + 1) = some b
      · rw [if_pos hc] at h
        have hk : n + 1 = k := Option.some.inj h
        rw [← hk]
        exact ⟨by omega, Nat.le_refl _, hc⟩
      · rw [if_neg hc] at h
        cases h

theorem endpointDense_append {st : ProcessorState} (svcId b : Nat)
    (h : endpointDense st) : endpointDense (endpointAppend st svcId b) := by
  unfold endpointAppend
  cases hsv : findA st.serviceMap svcId with
  | none => exact h
  | some sv =>
    intro s k
    show (findA (insertA st.endpointMap (svcId, sv.endpointCount + 1) b) (s, k)).isSome
        = true ↔
      ∃ v, findA (insertA st.serviceMap svcId
        { sv with endpointCount := sv.endpointCount + 1 }) s = some v ∧
        1 ≤ k ∧ k ≤ v.endpointCount
    rw [findA_insertA, findA_insertA]
    by_cases hs : s = svcId
    · subst hs
      rw [if_pos rfl]
      by_cases hk : k = sv.endpointCount + 1
      · rw [if_pos (by rw [hk])]
        simp only [Option.isSome_some, true_iff]
        exact ⟨{ sv with endpointCount := sv.endpointCount + 1 }, rfl, by omega,
          by rw [hk]⟩
      · rw [if_neg (fun hp => hk (congrArg Prod.snd hp))]
        rw [h s k]
        constructor
        · rintro ⟨v, hv, h1, h2⟩
          rw [hsv] at hv
          have hveq : sv = v := Option.some.inj hv
          refine ⟨{ sv with endpointCount := sv.endpointCount + 1 }, rfl, h1, ?_⟩
          rw [← hveq] at h2
          simp only
          omega
        · rintro ⟨v, hv, h1, h2⟩
          have hveq : { sv with endpointCount := sv.endpointCount + 1 } = v :=
            Option.some.inj hv
          rw [← hveq] at h2
          simp only at h2
          exact ⟨sv, hsv, h1, by omega⟩
    · rw [if_neg hs, if_neg (fun hp => hs (congrArg Prod.fst hp))]
      exact h s k

theorem endpointDense_remove {st : ProcessorState} (svcId b : Nat)
    (h : endpointDense st) : endpointDense (endpointRemove st svcId b) := by
  unfold endpointRemove
  cases hfs : findSlot st.endpointMap svcId b (oldCountOf st svcId) with
  | none => exact h
  | some k =>
    cases hsv : findA st.serviceMap svcId with
    | none => exact h
    | some sv =>
      have hoc : oldCountOf st svcId = sv.endpointCount := by
        unfold oldCountOf
        simp only [hsv]
      rw [hoc] at hfs
      obtain ⟨hk1, hkn, hkslot⟩ := findSlot_sound st.endpointMap svcId b sv.endpointCount
        k hfs
      have hn1 : 1 ≤ sv.endpointCount := Nat.le_trans hk1 hkn
      have hlast : ∃ last, findA st.endpointMap (svcId, sv.endpointCount) = some last := by
        have := (h svcId sv.endpointCount).mpr ⟨sv, hsv, hn1, Nat.le_refl _⟩
        exact Option.isSome_iff_exists.mp this
      obtain ⟨last, hlastv⟩ := hlast
      have hswap : ∀ s' k', findA (epSwap st.endpointMap svcId k sv.endpointCount) (s', k')
          = if (s', k') = (svcId, k) ∧ k ≠ sv.endpointCount then some last
            else findA st.endpointMap (s', k') := by
        intro s' k'
        unfold epSwap
        by_cases hke : k = sv.endpointCount
        · rw [if_pos hke]
          rw [if_neg (fun hp => hp.2 hke)]
        · rw [if_neg hke, hlastv]
          show findA (insertA st.endpointMap (svcId, k) last) (s', k') = _
          rw [findA_insertA]
          by_cases hp : ((s', k') : Nat × Nat) = (svcId, k)
          · rw [if_pos hp, if_pos ⟨hp, hke⟩]
          · rw [if_neg hp, if_neg (fun hq => hp hq.1)]
      intro s k'
      show (findA (eraseA (epSwap st.endpointMap svcId k sv.endpointCount)
        (svcId, sv.endpointCount)) (s, k')).isSome = true ↔
        ∃ v, findA (insertA st.serviceMap svcId
          { sv with endpointCount := sv.endpointCount - 1 }) s = some v ∧
          1 ≤ k' ∧ k' ≤ v.endpointCount
      rw [findA_eraseA, findA_insertA, hswap]
      by_cases hs : s = svcId
      · subst hs
        rw [if_pos rfl]
        by_cases hkn' : k' = sv.endpointCount
        · rw [if_pos (by rw [hkn'])]
          simp only [Option.isSome_none, Bool.false_eq_true, false_iff]
          rintro ⟨v, hv, h1, h2⟩
          have hveq : { sv with endpointCount := sv.endpointCount - 1 } = v :=
            Option.some.inj hv
          rw [← hveq] at h2
          simp only at h2
          omega
        · rw [if_neg (fun hp => hkn' (congrArg Prod.snd hp))]
          by_cases hkk : k' = k ∧ k ≠ sv.endpointCount
          · rw [if_pos ⟨by rw [hkk.1], hkk.2⟩]
            simp only [Option.isSome_some, true_iff]
            exact ⟨{ sv with endpointCount := sv.endpointCount - 1 }, rfl, by omega,
              by simp only; omega⟩
          · rw [if_neg (fun hp => hkk ⟨by
              have := congrArg Prod.snd hp.1
              simp at this
              exact this, hp.2⟩)]
            rw [h s k']
            constructor
            · rintro ⟨v, hv, h1, h2⟩
              rw [hsv] at hv
              have hveq : sv = v := Option.some.inj hv
              rw [← hveq] at h2
              refine ⟨{ sv with endpointCount := sv.endpointCount - 1 }, rfl, h1, ?_⟩
              simp only
              omega
            · rintro ⟨v, hv, h1, h2⟩
              have hveq : { sv with endpointCount := sv.endpointCount - 1 } = v :=
                Option.some.inj hv
              rw [← hveq] at h2
              simp only at h2
              exact ⟨sv, hsv, h1, by omega⟩
      · rw [if_neg (fun hp => hs (congrArg Prod.fst hp)),
          if_neg (fun hp => hs (congrArg Prod.fst hp.1)), if_neg hs]
        exact h s k'

theorem endpointDense_addMembership {st : ProcessorState} (wlId : Nat) (name : String)
    (h : endpointDense st) : endpointDense (addMembership st wlId name) := by
  unfold addMembership
  split
  · split
    · split
      · exact h
      · exact endpointDense_append _ wlId h
    · exact h
  · exact h

theorem endpointDense_dropMembership {st : ProcessorState} (wlId : Nat) (name : String)
    (h : endpointDense st) : endpointDense (dropMembership st wlId name) := by
  unfold dropMembership
  split
  · exact endpointDense_remove _ wlId h
  · exact h

theorem endpointDense_bindOne (svcId : Nat) (svcName : String) {st : ProcessorState}
    (p : String × Workload) (h : endpointDense st) :
    endpointDense (bindOne svcId svcName st p) := by
  unfold bindOne
  split
  · exact h
  · split
    · split
      · split
        · exact h
        · exact endpointDense_append svcId _ h
      · exact h
    · exact h

theorem endpointDense_membershipDiffApply {st : ProcessorState} (wlId : Nat)
    (oldNames newNames : List String) (h : endpointDense st) :
    endpointDense (membershipDiffApply st wlId oldNames newNames) := by
  unfold membershipDiffApply
  refine foldl_pres ?_ oldNames _ (foldl_pres ?_ newNames st h)
  · intro s a hs
    split
    · exact hs
    · exact endpointDense_dropMembership wlId a hs
  · intro s a hs
    split
    · exact hs
    · exact endpointDense_addMembership wlId a hs

theorem endpointDense_bindPending {st : ProcessorState} (svcId : Nat) (svcName : String)
    (h : endpointDense st) : endpointDense (bindPending st svcId svcName) := by
  unfold bindPending
  exact foldl_pres (fun s p hs => endpointDense_bindOne svcId svcName p hs)
    st.workloadByUid st h

theorem endpointDense_handleWorkload {st : ProcessorState} (wl : Workload)
    (h : endpointDense st) : endpointDense (handleWorkload st wl) := by
  unfold handleWorkload
  split
  · exact endpointDense_congr h rfl rfl
  · have h1 : endpointDense (wlMapsStage st wl) := endpointDense_congr h rfl rfl
    have h2 : endpointDense (membershipDiffApply (wlMapsStage st wl) (idOfName st wl.uid)
        (oldNamesOf st wl.uid) (wl.services.map Prod.fst)) :=
      endpointDense_membershipDiffApply _ _ _ h1
    exact endpointDense_congr h2 rfl rfl

theorem endpointDense_svcWriteStage {st : ProcessorState} (svc : Service) (svcId : Nat)
    (h : endpointDense st) : endpointDense (svcWriteStage st svc svcId) := by
  unfold svcWriteStage
  intro s k
  show (findA st.endpointMap (s, k)).isSome = true ↔
    ∃ v, findA (insertA st.serviceMap svcId (serviceValueOf svc (oldCountOf st svcId))) s
      = some v ∧ 1 ≤ k ∧ k ≤ v.endpointCount
  rw [findA_insertA]
  by_cases hs : s = svcId
  · subst hs
    rw [if_pos rfl, h s k]
    cases hsv : findA st.serviceMap s with
    | some sv =>
      have hcv : (serviceValueOf svc (oldCountOf st s)).endpointCount = sv.endpointCount := by
        show oldCountOf st s = sv.endpointCount
        unfold oldCountOf
        simp only [hsv]
      constructor
      · rintro ⟨v, hv, h1, h2⟩
        have hveq : sv = v := Option.some.inj hv
        refine ⟨serviceValueOf svc (oldCountOf st s), rfl, h1, ?_⟩
        rw [hcv, hveq]
        exact h2
      · rintro ⟨v, hv, h1, h2⟩
        have hveq : serviceValueOf svc (oldCountOf st s) = v := Option.some.inj hv
        rw [← hveq, hcv] at h2
        exact ⟨sv, rfl, h1, h2⟩
    | none =>
      have hcv : (serviceValueOf svc (oldCountOf st s)).endpointCount = 0 := by
        show oldCountOf st s = 0
        unfold oldCountOf
        simp only [hsv]
      constructor
      · rintro ⟨v, hv, _, _⟩
        cases hv
      · rintro ⟨v, hv, h1, h2⟩
        have hveq : serviceValueOf svc (oldCountOf st s) = v := Option.some.inj hv
        rw [← hveq, hcv] at h2
        omega
  · rw [if_neg hs]
    exact h s k

theorem endpointDense_handleService {st : ProcessorState} (svc : Service)
    (h : endpointDense st) : endpointDense (handleService st svc) := by
  unfold handleService handleServiceCore
  have h1 : endpointDense (svcFrontStage st (clearSelfWaypoint svc)) :=
    endpointDense_congr h rfl rfl
  have h2 : endpointDense (svcWriteStage (svcFrontStage st (clearSelfWaypoint svc))
      (clearSelfWaypoint svc) (idOfName st (clearSelfWaypoint svc).resourceName)) :=
    endpointDense_svcWriteStage _ _ h1
  have h3 : endpointDense (svcBindStage (svcWriteStage
      (svcFrontStage st (clearSelfWaypoint svc)) (clearSelfWaypoint svc)
      (idOfName st (clearSelfWaypoint svc).resourceName)) (clearSelfWaypoint svc)
      (idOfName st (clearSelfWaypoint svc).resourceName)) := by
    unfold svcBindStage
    split
    · exact h2
    · exact endpointDense_bindPending _ _ h2
  exact endpointDense_congr h3 rfl rfl

theorem endpointDense_removeServiceResource {st : ProcessorState} (name : String)
    (h : endpointDense st) : endpointDense (removeServiceResource st name) := by
  unfold removeServiceResource
  cases hc : findA st.serviceCache name with
  | none => exact h
  | some svc =>
    cases hr : findA st.strToNum name with
    | none => exact endpointDense_congr h rfl rfl
    | some svcId =>
      intro s k
      show (findA ((List.range (oldCountOf st svcId)).foldl
        (fun m i => eraseA m (svcId, i + 1)) st.endpointMap) (s, k)).isSome = true ↔
        ∃ v, findA (eraseA st.serviceMap svcId) s = some v ∧ 1 ≤ k ∧ k ≤ v.endpointCount
      rw [findA_foldl_eraseSlots, findA_eraseA]
      by_cases hs : s = svcId
      · rw [if_pos hs]
        constructor
        · intro hl
          exfalso
          by_cases hkc : 1 ≤ k ∧ k ≤ oldCountOf st svcId
          · rw [if_pos ⟨hs, hkc.1, hkc.2⟩] at hl
            simp at hl
          · rw [if_neg (fun hq => hkc ⟨hq.2.1, hq.2.2⟩)] at hl
            rw [h s k] at hl
            obtain ⟨v, hv, h1, h2⟩ := hl
            rw [hs] at hv
            have hoc : oldCountOf st svcId = v.endpointCount := by
              unfold oldCountOf
              simp only [hv]
            exact hkc ⟨h1, by rw [hoc]; exact h2⟩
        · rintro ⟨v, hv, _, _⟩
          cases hv
      · rw [if_neg hs, if_neg (fun hq => hs hq.1)]
        exact h s k

theorem endpointDense_removeWorkloadResource {st : ProcessorState} (uid : String)
    (h : endpointDense st) : endpointDense (removeWorkloadResource st uid) := by
  unfold removeWorkloadResource
  cases findA st.workloadByUid uid with
  | none => exact h
  | some wl =>
    cases findA st.strToNum uid with
    | none => exact endpointDense_congr h rfl rfl
    | some wlId =>
      have h1 : endpointDense (wl.services.foldl
          (fun s (p : String × List PortPair) => dropMembership s wlId p.1) st) :=
        foldl_pres (P := endpointDense)
          (fun s p hs => endpointDense_dropMembership wlId p.1 hs) wl.services st h
      have h2 : endpointDense (removeWorkloadMaps st wl uid wlId) :=
        endpointDense_congr h1 rfl rfl
      exact endpointDense_congr h2 rfl rfl

theorem endpointDense_handleRemovedAddresses {st : ProcessorState} (names : List String)
    (h : endpointDense st) : endpointDense (handleRemovedAddresses st names) := by
  unfold handleRemovedAddresses
  refine foldl_pres ?_ names st h
  intro s a hs
  split
  · exact endpointDense_removeServiceResource a hs
  · split
    · exact endpointDense_removeWorkloadResource a hs
    · exact hs

theorem endpointDense_init : endpointDense initState := by
  intro s k
  rw [show findA initState.endpointMap (s, k) = none from rfl]
  constructor
  · intro hl
    cases hl
  · rintro ⟨v, hv, _, _⟩
    cases hv

theorem endpointDense_applyEvents (evs : List Event) :
    endpointDense (applyEvents initState evs) := by
  unfold applyEvents
  refine foldl_pres ?_ evs initState endpointDense_init
  intro s e hs
  cases e with
  | svcUpsert svc => exact endpointDense_handleService svc hs
  | wlUpsert w => exact endpointDense_handleWorkload w hs
  | removeAddrs ns => exact endpointDense_handleRemovedAddresses ns hs

/-- C1: after any sequence of workload/service upserts and removals from
the initial state, a service recording endpointCount n has an endpoint
entry in exactly the slots 1..n: slot k exists iff 1 ≤ k ≤ n, so exactly
n contiguous entries exist and slot n+1 does not. -/
theorem endpoint_slots_dense (evs : List Event) (s : Nat) (sv : ServiceValue)
    (hsv : findA (applyEvents initState evs).serviceMap s = some sv) :
    ∀ k, (findA (applyEvents initState evs).endpointMap (s, k)).isSome = true ↔
      (1 ≤ k ∧ k ≤ sv.endpointCount) := by
  intro k
  rw [endpointDense_applyEvents evs s k]
  constructor
  · rintro ⟨v, hv, h1, h2⟩
    rw [hsv] at hv
    have hveq : sv = v := Option.some.inj hv
    rw [hveq]
    exact ⟨h1, h2⟩
  · rintro ⟨h1, h2⟩
    exact ⟨sv, hsv, h1, h2⟩

/-- C1 witness: the basic-add scenario as an event sequence; slot 1 of the
service exists and its count is 1. -/
theorem endpoint_slots_dense_witness :
    (findA (applyEvents initState
        [Event.svcUpsert basicSvc, Event.wlUpsert basicWl]).endpointMap (1, 1)).isSome
      = true ↔
    (1 ≤ 1 ∧ 1 ≤ (ServiceValue.mk 1 [10, 240, 10, 200] 41018 testPorts).endpointCount) :=
  endpoint_slots_dense [Event.svcUpsert basicSvc, Event.wlUpsert basicWl] 1
    (ServiceValue.mk 1 [10, 240, 10, 200] 41018 testPorts) (by decide) 1

/-! Registry and byte-order invariant, for C9. -/

theorem registerName_find_self (st : ProcessorState) (name : String) :
    findA (registerName st name).strToNum name = some (idOfName st name) := by
  unfold registerName idOfName
  cases hfind : findA st.strToNum name with
  | some i => exact hfind
  | none => exact findA_insertA_self st.strToNum name st.nextId

theorem registerName_find_ne (st : ProcessorState) (name n : String) (h : n ≠ name) :
    findA (registerName st name).strToNum n = findA st.strToNum n := by
  show findA (if (findA st.strToNum name).isSome = true then st.strToNum
    else insertA st.strToNum name st.nextId) n = findA st.strToNum n
  by_cases hfind : (findA st.strToNum name).isSome = true
  · rw [if_pos hfind]
  · rw [if_neg hfind, findA_insertA_ne _ _ _ _ h]

theorem registerName_nextId_ge (st : ProcessorState) (name : String) :
    st.nextId ≤ (registerName st name).nextId := by
  show st.nextId ≤ if (findA st.strToNum name).isSome = true then st.nextId
    else st.nextId + 1
  by_cases hfind : (findA st.strToNum name).isSome = true
  · rw [if_pos hfind]
  · rw [if_neg hfind]
    omega

/-- The registry and byte-order invariant: the registry is bounded by the
allocation counter and injective, backend keys are bounded, cached service
names are registered, and the waypoint port stored in every service-table
and backend-table value equals the 16-bit network-byte-order form of the
HboneMtlsPort of the cached input resource bound to that id. -/
structure RegPortInv (st : ProcessorState) : Prop where
  bound : ∀ n i, findA st.strToNum n = some i → i < st.nextId
  inj : ∀ n1 n2 i, findA st.strToNum n1 = some i → findA st.strToNum n2 = some i → n1 = n2
  bkeys : ∀ i, st.nextId ≤ i → findA st.backendMap i = none
  svcReg : ∀ n, (findA st.serviceCache n).isSome = true → (findA st.strToNum n).isSome = true
  svcPort : ∀ name svc id sv, findA st.serviceCache name = some svc →
    findA st.strToNum name = some id → findA st.serviceMap id = some sv →
    sv.waypointPort = convertPortToBigEndian (gwPortOf svc.waypoint)
  bePort : ∀ uid wl id bv, findA st.workloadByUid uid = some wl →
    wl.networkMode = NetworkMode.standard → findA st.strToNum uid = some id →
    findA st.backendMap id = some bv →
    bv.waypointPort = convertPortToBigEndian (gwPortOf wl.waypoint)

theorem regPortInv_of_eqs {st st' : ProcessorState} (h : RegPortInv st)
    (hstr : st'.strToNum = st.strToNum) (hnext : st'.nextId = st.nextId)
    (hbe : st'.backendMap = st.backendMap) (hsc : st'.serviceCache = st.serviceCache)
    (huid : st'.workloadByUid = st.workloadByUid)
    (hsm : ∀ id, (findA st'.serviceMap id).map ServiceValue.waypointPort =
      (findA st.serviceMap id).map ServiceValue.waypointPort) : RegPortInv st' := by
  constructor
  · intro n i hn
    rw [hstr] at hn
    rw [hnext]
    exact h.bound n i hn
  · intro n1 n2 i h1 h2
    rw [hstr] at h1 h2
    exact h.inj n1 n2 i h1 h2
  · intro i hi
    rw [hnext] at hi
    rw [hbe]
    exact h.bkeys i hi
  · intro n hn
    rw [hsc] at hn
    rw [hstr]
    exact h.svcReg n hn
  · intro name svc id sv hc hr hm
    rw [hsc] at hc
    rw [hstr] at hr
    have hpm := hsm id
    rw [hm] at hpm
    cases hm2 : findA st.serviceMap id with
    | none =>
      rw [hm2] at hpm
      cases hpm
    | some sv2 =>
      rw [hm2] at hpm
      have hpe : sv.waypointPort = sv2.waypointPort := Option.some.inj hpm
      rw [hpe]
      exact h.svcPort name svc id sv2 hc hr hm2
  · intro uid wl id bv hw hmd hr hb
    rw [huid] at hw
    rw [hstr] at hr
    rw [hbe] at hb
    exact h.bePort uid wl id bv hw hmd hr hb

/-- The state change done by the Endpoint Index: only the endpoint map and
the endpoint counts inside service values move; every other table, the
registry and the caches, and the waypoint port of every service value, are
untouched. -/
def PortFrame (st st' : ProcessorState) : Prop :=
  NonEndpointFrame st st' ∧
  ∀ id, (findA st'.serviceMap id).map ServiceValue.waypointPort =
    (findA st.serviceMap id).map ServiceValue.waypointPort

theorem portFrame_refl (st : ProcessorState) : PortFrame st st :=
  ⟨nonEndpointFrame_refl st, fun _ => rfl⟩

theorem portFrame_trans {s1 s2 s3 : ProcessorState} (h1 : PortFrame s1 s2)
    (h2 : PortFrame s2 s3) : PortFrame s1 s3 :=
  ⟨nonEndpointFrame_trans h1.1 h2.1, fun id => (h2.2 id).trans (h1.2 id)⟩

theorem regPortInv_portFrame {st st' : ProcessorState} (h : RegPortInv st)
    (hf : PortFrame st st') : RegPortInv st' := by
  obtain ⟨⟨hstr, hnext, _, hbe, huid, _, hsc⟩, hsm⟩ := hf
  exact regPortInv_of_eqs h hstr hnext hbe hsc huid hsm

theorem portFrame_endpointAppend (st : ProcessorState) (svcId b : Nat) :
    PortFrame st (endpointAppend st svcId b) := by
  refine ⟨endpointAppend_frame st svcId b, ?_⟩
  intro id
  unfold endpointAppend
  cases hsv : findA st.serviceMap svcId with
  | none => rfl
  | some sv =>
    show (findA (insertA st.serviceMap svcId
      { sv with endpointCount := sv.endpointCount + 1 }) id).map ServiceValue.waypointPort
      = _
    rw [findA_insertA]
    by_cases hid : id = svcId
    · rw [if_pos hid, hid, hsv]
      rfl
    · rw [if_neg hid]

theorem portFrame_endpointRemove (st : ProcessorState) (svcId b : Nat) :
    PortFrame st (endpointRemove st svcId b) := by
  refine ⟨endpointRemove_frame st svcId b, ?_⟩
  intro id
  unfold endpointRemove
  cases hfs : findSlot st.endpointMap svcId b (oldCountOf st svcId) with
  | none => rfl
  | some k =>
    cases hsv : findA st.serviceMap svcId with
    | none => rfl
    | some sv =>
      show (findA (insertA st.serviceMap svcId
        { sv with endpointCount := sv.endpointCount - 1 }) id).map ServiceValue.waypointPort
        = _
      rw [findA_insertA]
      by_cases hid : id = svcId
      · rw [if_pos hid, hid, hsv]
        rfl
      · rw [if_neg hid]

theorem portFrame_addMembership (st : ProcessorState) (wlId : Nat) (name : String) :
    PortFrame st (addMembership st wlId name) := by
  unfold addMembership
  split
  · split
    · split
      · exact portFrame_refl st
      · exact portFrame_endpointAppend st _ wlId
    · exact portFrame_refl st
  · exact portFrame_refl st

theorem portFrame_dropMembership (st : ProcessorState) (wlId : Nat) (name : String) :
    PortFrame st (dropMembership st wlId name) := by
  unfold dropMembership
  split
  · exact portFrame_endpointRemove st _ wlId
  · exact portFrame_refl st

theorem portFrame_bindOne (svcId : Nat) (svcName : String) (st : ProcessorState)
    (p : String × Workload) : PortFrame st (bindOne svcId svcName st p) := by
  unfold bindOne
  split
  · exact portFrame_refl st
  · split
    · split
      · split
        · exact portFrame_refl st
        · exact portFrame_endpointAppend st svcId _
      · exact portFrame_refl st
    · exact portFrame_refl st

theorem foldl_portFrame {α : Type} {f : ProcessorState → α → ProcessorState}
    (h : ∀ s a, PortFrame s (f s a)) :
    ∀ (l : List α) (st : ProcessorState), PortFrame st (l.foldl f st) := by
  intro l
  induction l with
  | nil => intro st; exact portFrame_refl st
  | cons x xs ih => intro st; exact portFrame_trans (h st x) (ih (f st x))

theorem portFrame_membershipDiffApply (st : ProcessorState) (wlId : Nat)
    (oldNames newNames : List String) :
    PortFrame st (membershipDiffApply st wlId oldNames newNames) := by
  unfold membershipDiffApply
  have h1 : PortFrame st (newNames.foldl
      (fun s name => if name ∈ oldNames then s else addMembership s wlId name) st) := by
    apply foldl_portFrame
    intro s a
    split
    · exact portFrame_refl s
    · exact portFrame_addMembership s wlId a
  refine portFrame_trans h1 ?_
  apply foldl_portFrame
  intro s a
  split
  · exact portFrame_refl s
  · exact portFrame_dropMembership s wlId a

theorem portFrame_bindPending (st : ProcessorState) (svcId : Nat) (svcName : String) :
    PortFrame st (bindPending st svcId svcName) :=
  foldl_portFrame (fun s p => portFrame_bindOne svcId svcName s p) st.workloadByUid st

theorem regPortInv_alloc {st : ProcessorState} (name : String) (h : RegPortInv st)
    (hfind : findA st.strToNum name = none) :
    RegPortInv { st with strToNum := insertA st.strToNum name st.nextId,
                         nextId := st.nextId + 1 } := by
  constructor
  · intro n i hn
    have hn2 : findA (insertA st.strToNum name st.nextId) n = some i := hn
    rw [findA_insertA] at hn2
    show i < st.nextId + 1
    by_cases hne : n = name
    · rw [if_pos hne] at hn2
      have := Option.some.inj hn2
      omega
    · rw [if_neg hne] at hn2
      have := h.bound n i hn2
      omega
  · intro n1 n2 i h1 h2
    have h1b : findA (insertA st.strToNum name st.nextId) n1 = some i := h1
    have h2b : findA (insertA st.strToNum name st.nextId) n2 = some i := h2
    rw [findA_insertA] at h1b h2b
    by_cases he1 : n1 = name <;> by_cases he2 : n2 = name
    · rw [he1, he2]
    · exfalso
      rw [if_pos he1] at h1b
      rw [if_neg he2] at h2b
      have hi : st.nextId = i := Option.some.inj h1b
      have := h.bound n2 i h2b
      omega
    · exfalso
      rw [if_pos he2] at h2b
      rw [if_neg he1] at h1b
      have hi : st.nextId = i := Option.some.inj h2b
      have := h.bound n1 i h1b
      omega
    · rw [if_neg he1] at h1b
      rw [if_neg he2] at h2b
      exact h.inj n1 n2 i h1b h2b
  · intro i hi
    have hi2 : st.nextId + 1 ≤ i := hi
    exact h.bkeys i (by omega)
  · intro n hn
    show (findA (insertA st.strToNum name st.nextId) n).isSome = true
    rw [findA_insertA]
    by_cases hne : n = name
    · rw [if_pos hne]
      rfl
    · rw [if_neg hne]
      exact h.svcReg n hn
  · intro name2 svc id sv hc hr hm
    have hrb : findA (insertA st.strToNum name st.nextId) name2 = some id := hr
    rw [findA_insertA] at hrb
    by_cases hne : name2 = name
    · exfalso
      have h1 := h.svcReg name2 (by rw [show findA st.serviceCache name2 = some svc from hc]; rfl)
      rw [hne, hfind] at h1
      cases h1
    · rw [if_neg hne] at hrb
      exact h.svcPort name2 svc id sv hc hrb hm
  · intro uid wl id bv hw hmd hr hb
    have hrb : findA (insertA st.strToNum name st.nextId) uid = some id := hr
    rw [findA_insertA] at hrb
    by_cases hne : uid = name
    · exfalso
      rw [if_pos hne] at hrb
      have hi : st.nextId = id := Option.some.inj hrb
      have hkb : findA st.backendMap id = none := h.bkeys id (by omega)
      have hbb : findA st.backendMap id = some bv := hb
      rw [hkb] at hbb
      cases hbb
    · rw [if_neg hne] at hrb
      exact h.bePort uid wl id bv hw hmd hrb hb

theorem regPortInv_registerName {st : ProcessorState} (name : String) (h : RegPortInv st) :
    RegPortInv (registerName st name) := by
  cases hfind : findA st.strToNum name with
  | some i =>
    have heq : registerName st name = st := by
      unfold registerName
      rw [hfind]
      rfl
    rw [heq]
    exact h
  | none =>
    have heq : registerName st name =
        { st with strToNum := insertA st.strToNum name st.nextId,
                  nextId := st.nextId + 1 } := by
      unfold registerName
      rw [hfind]
      rfl
    rw [heq]
    exact regPortInv_alloc name h hfind

theorem idOfName_spec_found {st : ProcessorState} {name : String} {j : Nat}
    (hfind : findA st.strToNum name = some j) : idOfName st name = j := by
  unfold idOfName
  rw [hfind]

theorem idOfName_spec_alloc {st : ProcessorState} {name : String}
    (hfind : findA st.strToNum name = none) : idOfName st name = st.nextId := by
  unfold idOfName
  rw [hfind]

theorem idOfName_ne_of_other {st : ProcessorState} (h : RegPortInv st) {name n2 : String}
    {id : Nat} (hne : n2 ≠ name) (hr : findA st.strToNum n2 = some id) :
    id ≠ idOfName st name := by
  cases hfind : findA st.strToNum name with
  | some j =>
    rw [idOfName_spec_found hfind]
    intro heq
    exact hne (h.inj n2 name j (heq ▸ hr) hfind)
  | none =>
    rw [idOfName_spec_alloc hfind]
    intro heq
    have := h.bound n2 id hr
    omega

theorem regPortInv_handleServiceCore (st : ProcessorState) (svc : Service)
    (h : RegPortInv st) : RegPortInv (handleServiceCore st svc) := by
  have hR : RegPortInv (registerName st svc.resourceName) :=
    regPortInv_registerName svc.resourceName h
  have hRself : findA (registerName st svc.resourceName).strToNum svc.resourceName =
      some (idOfName st svc.resourceName) := registerName_find_self st svc.resourceName
  have hBF : PortFrame
      (svcWriteStage (svcFrontStage st svc) svc (idOfName st svc.resourceName))
      (svcBindStage (svcWriteStage (svcFrontStage st svc) svc
        (idOfName st svc.resourceName)) svc (idOfName st svc.resourceName)) := by
    unfold svcBindStage
    split
    · exact portFrame_refl _
    · exact portFrame_bindPending _ _ _
  obtain ⟨⟨hstrB, hnextB, _, hbeB, huidB, _, hscB⟩, hsmB⟩ := hBF
  have hstr : (handleServiceCore st svc).strToNum =
      (registerName st svc.resourceName).strToNum := hstrB
  have hnext : (handleServiceCore st svc).nextId =
      (registerName st svc.resourceName).nextId := hnextB
  have hbe : (handleServiceCore st svc).backendMap = st.backendMap := hbeB
  have huid : (handleServiceCore st svc).workloadByUid = st.workloadByUid := huidB
  have hsc : (handleServiceCore st svc).serviceCache =
      insertA st.serviceCache svc.resourceName svc := by
    show insertA (svcBindStage (svcWriteStage (svcFrontStage st svc) svc
      (idOfName st svc.resourceName)) svc (idOfName st svc.resourceName)).serviceCache
      svc.resourceName svc = insertA st.serviceCache svc.resourceName svc
    rw [hscB]
    rfl
  have hsm : ∀ id, (findA (handleServiceCore st svc).serviceMap id).map
      ServiceValue.waypointPort =
      (findA (insertA st.serviceMap (idOfName st svc.resourceName)
        (serviceValueOf svc (oldCountOf (svcFrontStage st svc)
          (idOfName st svc.resourceName)))) id).map ServiceValue.waypointPort := hsmB
  constructor
  · intro n i hn
    rw [hstr] at hn
    rw [hnext]
    exact hR.bound n i hn
  · intro n1 n2 i h1 h2
    rw [hstr] at h1 h2
    exact hR.inj n1 n2 i h1 h2
  · intro i hi
    rw [hnext] at hi
    rw [hbe]
    exact h.bkeys i (Nat.le_trans (registerName_nextId_ge st svc.resourceName) hi)
  · intro n hn
    rw [hsc] at hn
    rw [hstr]
    have hn2 : (findA (insertA st.serviceCache svc.resourceName svc) n).isSome = true := hn
    rw [findA_insertA] at hn2
    by_cases hne : n = svc.resourceName
    · rw [hne, hRself]
      rfl
    · rw [if_neg hne] at hn2
      rw [registerName_find_ne st svc.resourceName n hne]
      exact h.svcReg n hn2
  · intro name2 svc2 id sv hc hr hm
    rw [hsc] at hc
    rw [hstr] at hr
    rw [findA_insertA] at hc
    by_cases hne : name2 = svc.resourceName
    · rw [if_pos hne] at hc
      have hsvc2 : svc = svc2 := Option.some.inj hc
      rw [hne, hRself] at hr
      have hid : idOfName st svc.resourceName = id := Option.some.inj hr
      have hpm := hsm id
      rw [hm, ← hid, findA_insertA_self] at hpm
      have hpe : sv.waypointPort = (serviceValueOf svc
          (oldCountOf (svcFrontStage st svc) (idOfName st svc.resourceName))).waypointPort :=
        Option.some.inj hpm
      rw [hpe, ← hsvc2]
      rfl
    · rw [if_neg hne] at hc
      rw [registerName_find_ne st svc.resourceName name2 hne] at hr
      have hidne : id ≠ idOfName st svc.resourceName := idOfName_ne_of_other h hne hr
      have hpm := hsm id
      rw [hm, findA_insertA_ne _ _ _ _ hidne] at hpm
      cases hm2 : findA st.serviceMap id with
      | none =>
        rw [hm2] at hpm
        simp at hpm
      | some sv2 =>
        rw [hm2] at hpm
        have hpe : sv.waypointPort = sv2.waypointPort := Option.some.inj hpm
        rw [hpe]
        exact h.svcPort name2 svc2 id sv2 hc hr hm2
  · intro uid wl id bv hw hmd hr hb
    rw [huid] at hw
    rw [hstr] at hr
    rw [hbe] at hb
    by_cases hne : uid = svc.resourceName
    · rw [hne, hRself] at hr
      have hid : idOfName st svc.resourceName = id := Option.some.inj hr
      cases hfind : findA st.strToNum svc.resourceName with
      | some j =>
        have hj : idOfName st svc.resourceName = j := idOfName_spec_found hfind
        have hrold : findA st.strToNum uid = some id := by
          rw [hne, hfind]
          exact congrArg some (hj.symm.trans hid)
        exact h.bePort uid wl id bv hw hmd hrold hb
      | none =>
        exfalso
        have hj : idOfName st svc.resourceName = st.nextId := idOfName_spec_alloc hfind
        have hideq : id = st.nextId := by rw [← hid, hj]
        have hkb := h.bkeys id (by rw [hideq])
        rw [hkb] at hb
        cases hb
    · rw [registerName_find_ne st svc.resourceName uid hne] at hr
      exact h.bePort uid wl id bv hw hmd hr hb

theorem regPortInv_handleService (st : ProcessorState) (svc0 : Service)
    (h : RegPortInv st) : RegPortInv (handleService st svc0) :=
  regPortInv_handleServiceCore st (clearSelfWaypoint svc0) h

theorem regPortInv_handleWorkload (st : ProcessorState) (wl : Workload)
    (h : RegPortInv st) : RegPortInv (handleWorkload st wl) := by
  unfold handleWorkload
  by_cases hmode : wl.networkMode = NetworkMode.hostNetwork
  · rw [if_pos hmode]
    constructor
    · exact h.bound
    · exact h.inj
    · exact h.bkeys
    · exact h.svcReg
    · exact h.svcPort
    · intro uid wl2 id bv hw hmd hr hb
      have hw2 : findA (insertA st.workloadByUid wl.uid wl) uid = some wl2 := hw
      rw [findA_insertA] at hw2
      by_cases hne : uid = wl.uid
      · rw [if_pos hne] at hw2
        have hwl2 : wl = wl2 := Option.some.inj hw2
        rw [← hwl2] at hmd
        rw [hmode] at hmd
        exact NetworkMode.noConfusion hmd
      · rw [if_neg hne] at hw2
        exact h.bePort uid wl2 id bv hw2 hmd hr hb
  · rw [if_neg hmode]
    unfold handleWorkloadStd
    have hR : RegPortInv (registerName st wl.uid) := regPortInv_registerName wl.uid h
    have hRself := registerName_find_self st wl.uid
    have hPF : PortFrame (wlMapsStage st wl)
        (membershipDiffApply (wlMapsStage st wl) (idOfName st wl.uid)
          (oldNamesOf st wl.uid) (wl.services.map Prod.fst)) :=
      portFrame_membershipDiffApply _ _ _ _
    obtain ⟨⟨hstrB, hnextB, _, hbeB, huidB, _, hscB⟩, hsmB⟩ := hPF
    have hstr : (cacheWl (membershipDiffApply (wlMapsStage st wl) (idOfName st wl.uid)
        (oldNamesOf st wl.uid) (wl.services.map Prod.fst)) wl).strToNum =
        (registerName st wl.uid).strToNum := hstrB
    have hnext : (cacheWl (membershipDiffApply (wlMapsStage st wl) (idOfName st wl.uid)
        (oldNamesOf st wl.uid) (wl.services.map Prod.fst)) wl).nextId =
        (registerName st wl.uid).nextId := hnextB
    have hbe : (cacheWl (membershipDiffApply (wlMapsStage st wl) (idOfName st wl.uid)
        (oldNamesOf st wl.uid) (wl.services.map Prod.fst)) wl).backendMap =
        insertA st.backendMap (idOfName st wl.uid) (backendValueOf wl) := hbeB
    have huid : (cacheWl (membershipDiffApply (wlMapsStage st wl) (idOfName st wl.uid)
        (oldNamesOf st wl.uid) (wl.services.map Prod.fst)) wl).workloadByUid =
        insertA st.workloadByUid wl.uid wl := by
      show insertA (membershipDiffApply (wlMapsStage st wl) (idOfName st wl.uid)
        (oldNamesOf st wl.uid) (wl.services.map Prod.fst)).workloadByUid wl.uid wl =
        insertA st.workloadByUid wl.uid wl
      rw [huidB]
      rfl
    have hsc : (cacheWl (membershipDiffApply (wlMapsStage st wl) (idOfName st wl.uid)
        (oldNamesOf st wl.uid) (wl.services.map Prod.fst)) wl).serviceCache =
        st.serviceCache := hscB
    have hsm : ∀ id, (findA (cacheWl (membershipDiffApply (wlMapsStage st wl)
        (idOfName st wl.uid) (oldNamesOf st wl.uid)
        (wl.services.map Prod.fst)) wl).serviceMap id).map ServiceValue.waypointPort =
        (findA st.serviceMap id).map ServiceValue.waypointPort := hsmB
    have hlt : idOfName st wl.uid < (registerName st wl.uid).nextId := by
      cases hfind : findA st.strToNum wl.uid with
      | some j =>
        rw [idOfName_spec_found hfind]
        exact Nat.lt_of_lt_of_le (h.bound wl.uid j hfind) (registerName_nextId_ge st wl.uid)
      | none =>
        rw [idOfName_spec_alloc hfind]
        have heqn : (registerName st wl.uid).nextId = st.nextId + 1 := by
          unfold registerName
          rw [hfind]
          rfl
        omega
    constructor
    · intro n i hn
      rw [hstr] at hn
      rw [hnext]
      exact hR.bound n i hn
    · intro n1 n2 i h1 h2
      rw [hstr] at h1 h2
      exact hR.inj n1 n2 i h1 h2
    · intro i hi
      rw [hnext] at hi
      rw [hbe, findA_insertA]
      have hine : ¬ i = idOfName st wl.uid := by omega
      rw [if_neg hine]
      exact h.bkeys i (Nat.le_trans (registerName_nextId_ge st wl.uid) hi)
    · intro n hn
      rw [hsc] at hn
      rw [hstr]
      have hold := h.svcReg n hn
      by_cases hne : n = wl.uid
      · rw [hne, hRself]
        rfl
      · rw [registerName_find_ne st wl.uid n hne]
        exact hold
    · intro name2 svc2 id sv hc hr hm
      rw [hsc] at hc
      rw [hstr] at hr
      have hpm := hsm id
      rw [hm] at hpm
      by_cases hne : name2 = wl.uid
      · have hso := h.svcReg name2 (by rw [hc]; rfl)
        obtain ⟨j, hj⟩ := Option.isSome_iff_exists.mp hso
        have hrr : findA (registerName st wl.uid).strToNum name2 = some j := by
          rw [hne]
          rw [hne] at hj
          rw [hRself, idOfName_spec_found hj]
        have hid : j = id := by
          rw [hrr] at hr
          exact Option.some.inj hr
        cases hm2 : findA st.serviceMap id with
        | none =>
          rw [hm2] at hpm
          simp at hpm
        | some sv2v =>
          rw [hm2] at hpm
          have hpe : sv.waypointPort = sv2v.waypointPort := Option.some.inj hpm
          rw [hpe]
          exact h.svcPort name2 svc2 id sv2v hc (by rw [← hid]; exact hj) hm2
      · rw [registerName_find_ne st wl.uid name2 hne] at hr
        cases hm2 : findA st.serviceMap id with
        | none =>
          rw [hm2] at hpm
          simp at hpm
        | some sv2v =>
          rw [hm2] at hpm
          have hpe : sv.waypointPort = sv2v.waypointPort := Option.some.inj hpm
          rw [hpe]
          exact h.svcPort name2 svc2 id sv2v hc hr hm2
    · intro uid wl2 id bv hw hmd hr hb
      rw [huid] at hw
      rw [hstr] at hr
      rw [hbe] at hb
      rw [findA_insertA] at hw
      rw [findA_insertA] at hb
      by_cases hne : uid = wl.uid
      · rw [if_pos hne] at hw
        have hwl2 : wl = wl2 := Option.some.inj hw
        rw [hne, hRself] at hr
        have hid : idOfName st wl.uid = id := Option.some.inj hr
        rw [if_pos hid.symm] at hb
        have hbv : backendValueOf wl = bv := Option.some.inj hb
        rw [← hbv, ← hwl2]
        rfl
      · rw [if_neg hne] at hw
        rw [registerName_find_ne st wl.uid uid hne] at hr
        have hidne : id ≠ idOfName st wl.uid := idOfName_ne_of_other h hne hr
        rw [if_neg hidne] at hb
        exact h.bePort uid wl2 id bv hw hmd hr hb

theorem regPortInv_removeServiceResource (st : ProcessorState) (name : String)
    (h : RegPortInv st) : RegPortInv (removeServiceResource st name) := by
  unfold removeServiceResource
  cases hc : findA st.serviceCache name with
  | none => exact h
  | some svc =>
    cases hr : findA st.strToNum name with
    | none =>
      constructor
      · exact h.bound
      · exact h.inj
      · exact h.bkeys
      · intro n hn
        have hn2 : (findA (eraseA st.serviceCache name) n).isSome = true := hn
        rw [findA_eraseA] at hn2
        by_cases hne : n = name
        · rw [if_pos hne] at hn2
          simp at hn2
        · rw [if_neg hne] at hn2
          exact h.svcReg n hn2
      · intro name2 svc2 id sv hc2 hr2 hm2
        have hc3 : findA (eraseA st.serviceCache name) name2 = some svc2 := hc2
        rw [findA_eraseA] at hc3
        by_cases hne : name2 = name
        · rw [if_pos hne] at hc3
          cases hc3
        · rw [if_neg hne] at hc3
          exact h.svcPort name2 svc2 id sv hc3 hr2 hm2
      · exact h.bePort
    | some svcId =>
      constructor
      · intro n i hn
        have hn2 : findA (eraseA st.strToNum name) n = some i := hn
        rw [findA_eraseA] at hn2
        by_cases hne : n = name
        · rw [if_pos hne] at hn2
          cases hn2
        · rw [if_neg hne] at hn2
          exact h.bound n i hn2
      · intro n1 n2 i h1 h2
        have h1b : findA (eraseA st.strToNum name) n1 = some i := h1
        have h2b : findA (eraseA st.strToNum name) n2 = some i := h2
        rw [findA_eraseA] at h1b h2b
        by_cases he1 : n1 = name
        · rw [if_pos he1] at h1b
          cases h1b
        · by_cases he2 : n2 = name
          · rw [if_pos he2] at h2b
            cases h2b
          · rw [if_neg he1] at h1b
            rw [if_neg he2] at h2b
            exact h.inj n1 n2 i h1b h2b
      · exact h.bkeys
      · intro n hn
        have hn2 : (findA (eraseA st.serviceCache name) n).isSome = true := hn
        rw [findA_eraseA] at hn2
        by_cases hne : n = name
        · rw [if_pos hne] at hn2
          simp at hn2
        · rw [if_neg hne] at hn2
          show (findA (eraseA st.strToNum name) n).isSome = true
          rw [findA_eraseA, if_neg hne]
          exact h.svcReg n hn2
      · intro name2 svc2 id sv hc2 hr2 hm2
        have hc3 : findA (eraseA st.serviceCache name) name2 = some svc2 := hc2
        have hr3 : findA (eraseA st.strToNum name) name2 = some id := hr2
        have hm3 : findA (eraseA st.serviceMap svcId) id = some sv := hm2
        rw [findA_eraseA] at hc3 hr3 hm3
        by_cases hne : name2 = name
        · rw [if_pos hne] at hc3
          cases hc3
        · rw [if_neg hne] at hc3 hr3
          by_cases hie : id = svcId
          · rw [if_pos hie] at hm3
            cases hm3
          · rw [if_neg hie] at hm3
            exact h.svcPort name2 svc2 id sv hc3 hr3 hm3
      · intro uid wl id bv hw hmd hr2 hb
        have hr3 : findA (eraseA st.strToNum name) uid = some id := hr2
        rw [findA_eraseA] at hr3
        by_cases hne : uid = name
        · rw [if_pos hne] at hr3
          cases hr3
        · rw [if_neg hne] at hr3
          exact h.bePort uid wl id bv hw hmd hr3 hb

theorem regPortInv_eraseWl {sd : ProcessorState} (wl : Workload) (uid : String) (wlId : Nat)
    (hD : RegPortInv sd)
    (hreg : findA sd.strToNum uid = some wlId)
    (hguard : findA sd.serviceCache uid = none)
    (fe : List (IPAddr × Nat)) (ba : List ((String × IPAddr) × Workload)) :
    RegPortInv { sd with frontend := fe, backendMap := eraseA sd.backendMap wlId,
                         strToNum := eraseA sd.strToNum uid,
                         workloadByUid := eraseA sd.workloadByUid uid,
                         workloadByAddr := ba } := by
  constructor
  · intro n i hn
    have hn2 : findA (eraseA sd.strToNum uid) n = some i := hn
    rw [findA_eraseA] at hn2
    by_cases hne : n = uid
    · rw [if_pos hne] at hn2
      cases hn2
    · rw [if_neg hne] at hn2
      exact hD.bound n i hn2
  · intro n1 n2 i h1 h2
    have h1b : findA (eraseA sd.strToNum uid) n1 = some i := h1
    have h2b : findA (eraseA sd.strToNum uid) n2 = some i := h2
    rw [findA_eraseA] at h1b h2b
    by_cases he1 : n1 = uid
    · rw [if_pos he1] at h1b
      cases h1b
    · by_cases he2 : n2 = uid
      · rw [if_pos he2] at h2b
        cases h2b
      · rw [if_neg he1] at h1b
        rw [if_neg he2] at h2b
        exact hD.inj n1 n2 i h1b h2b
  · intro i hi
    show findA (eraseA sd.backendMap wlId) i = none
    rw [findA_eraseA]
    by_cases hie : i = wlId
    · rw [if_pos hie]
    · rw [if_neg hie]
      exact hD.bkeys i hi
  · intro n hn
    show (findA (eraseA sd.strToNum uid) n).isSome = true
    rw [findA_eraseA]
    by_cases hne : n = uid
    · exfalso
      rw [hne] at hn
      rw [show findA sd.serviceCache uid = none from hguard] at hn
      simp at hn
    · rw [if_neg hne]
      exact hD.svcReg n hn
  · intro name2 svc2 id sv hc2 hr2 hm2
    have hr3 : findA (eraseA sd.strToNum uid) name2 = some id := hr2
    rw [findA_eraseA] at hr3
    by_cases hne : name2 = uid
    · rw [if_pos hne] at hr3
      cases hr3
    · rw [if_neg hne] at hr3
      exact hD.svcPort name2 svc2 id sv hc2 hr3 hm2
  · intro uid2 wl2 id bv hw hmd hr2 hb
    have hw2 : findA (eraseA sd.workloadByUid uid) uid2 = some wl2 := hw
    have hr3 : findA (eraseA sd.strToNum uid) uid2 = some id := hr2
    have hb2 : findA (eraseA sd.backendMap wlId) id = some bv := hb
    rw [findA_eraseA] at hw2 hr3 hb2
    by_cases hne : uid2 = uid
    · rw [if_pos hne] at hw2
      cases hw2
    · rw [if_neg hne] at hw2 hr3
      by_cases hie : id = wlId
      · exfalso
        rw [hie] at hr3
        exact hne (hD.inj uid2 uid wlId hr3 hreg)
      · rw [if_neg hie] at hb2
        exact hD.bePort uid2 wl2 id bv hw2 hmd hr3 hb2

theorem regPortInv_removeWorkloadResource (st : ProcessorState) (uid : String)
    (h : RegPortInv st) (hguard : findA st.serviceCache uid = none) :
    RegPortInv (removeWorkloadResource st uid) := by
  unfold removeWorkloadResource
  cases hwc : findA st.workloadByUid uid with
  | none => exact h
  | some wl =>
    cases hrc : findA st.strToNum uid with
    | none =>
      constructor
      · exact h.bound
      · exact h.inj
      · exact h.bkeys
      · exact h.svcReg
      · exact h.svcPort
      · intro uid2 wl2 id bv hw hmd hr hb
        have hw2 : findA (eraseA st.workloadByUid uid) uid2 = some wl2 := hw
        rw [findA_eraseA] at hw2
        by_cases hne : uid2 = uid
        · rw [if_pos hne] at hw2
          cases hw2
        · rw [if_neg hne] at hw2
          exact h.bePort uid2 wl2 id bv hw2 hmd hr hb
    | some wlId =>
      have hDF : PortFrame st (wl.services.foldl
          (fun s (p : String × List PortPair) => dropMembership s wlId p.1) st) :=
        foldl_portFrame (fun s p => portFrame_dropMembership s wlId p.1) wl.services st
      have hD : RegPortInv (wl.services.foldl
          (fun s (p : String × List PortPair) => dropMembership s wlId p.1) st) :=
        regPortInv_portFrame h hDF
      have hregD : findA (wl.services.foldl
          (fun s (p : String × List PortPair) => dropMembership s wlId p.1) st).strToNum uid
          = some wlId := by
        rw [hDF.1.1]
        exact hrc
      have hguardD : findA (wl.services.foldl
          (fun s (p : String × List PortPair) => dropMembership s wlId p.1) st).serviceCache
          uid = none := by
        rw [hDF.1.2.2.2.2.2.2]
        exact hguard
      have hgoal : RegPortInv (removeWlCaches (removeWorkloadMaps st wl uid wlId) wl uid) :=
        regPortInv_eraseWl wl uid wlId hD hregD hguardD _ _
      exact hgoal

theorem regPortInv_handleRemovedAddresses (st : ProcessorState) (names : List String)
    (h : RegPortInv st) : RegPortInv (handleRemovedAddresses st names) := by
  unfold handleRemovedAddresses
  refine foldl_pres ?_ names st h
  intro s a hs
  split
  · exact regPortInv_removeServiceResource s a hs
  · rename_i hnc
    split
    · exact regPortInv_removeWorkloadResource s a hs
        (Option.not_isSome_iff_eq_none.mp (fun hx => hnc hx))
    · exact hs

theorem regPortInv_init : RegPortInv initState := by
  constructor
  · intro n i hn
    exact Option.noConfusion hn
  · intro n1 n2 i h1 h2
    exact Option.noConfusion h1
  · intro i _
    rfl
  · intro n hn
    exact hn
  · intro name svc id sv hc _ _
    exact Option.noConfusion hc
  · intro uid wl id bv hw _ _ _
    exact Option.noConfusion hw

theorem regPortInv_applyEvents (evs : List Event) : RegPortInv (applyEvents initState evs) := by
  unfold applyEvents
  refine foldl_pres ?_ evs initState regPortInv_init
  intro s e hs
  cases e with
  | svcUpsert svc => exact regPortInv_handleService s svc hs
  | wlUpsert w => exact regPortInv_handleWorkload s w hs
  | removeAddrs ns => exact regPortInv_handleRemovedAddresses s ns hs

/-- C9: after any event sequence from the initial state, the waypoint port
field of every service-table value and every backend-table value written
by the processor equals the 16-bit big-endian (network byte order)
representation of the HboneMtlsPort of the cached input resource bound to
that id. -/
theorem waypoint_port_big_endian (evs : List Event) :
    (∀ name svc id sv,
      findA (applyEvents initState evs).serviceCache name = some svc →
      findA (applyEvents initState evs).strToNum name = some id →
      findA (applyEvents initState evs).serviceMap id = some sv →
      sv.waypointPort = convertPortToBigEndian (gwPortOf svc.waypoint)) ∧
    (∀ uid wl id bv,
      findA (applyEvents initState evs).workloadByUid uid = some wl →
      wl.networkMode = NetworkMode.standard →
      findA (applyEvents initState evs).strToNum uid = some id →
      findA (applyEvents initState evs).backendMap id = some bv →
      bv.waypointPort = convertPortToBigEndian (gwPortOf wl.waypoint)) :=
  ⟨(regPortInv_applyEvents evs).svcPort, (regPortInv_applyEvents evs).bePort⟩

/-- C9 witness: in the basic-add scenario the service value holds 41018,
the big-endian form of 15008, and the backend value 0 for no waypoint. -/
theorem waypoint_port_big_endian_witness :
    (ServiceValue.mk 1 [10, 240, 10, 200] 41018 testPorts).waypointPort =
      convertPortToBigEndian (gwPortOf basicSvc.waypoint) ∧
    (backendValueOf basicWl).waypointPort =
      convertPortToBigEndian (gwPortOf basicWl.waypoint) :=
  ⟨(waypoint_port_big_endian [Event.svcUpsert basicSvc, Event.wlUpsert basicWl]).1
      (svcResName "testsvc") basicSvc 1
      (ServiceValue.mk 1 [10, 240, 10, 200] 41018 testPorts)
      (by decide) (by decide) (by decide),
   (waypoint_port_big_endian [Event.svcUpsert basicSvc, Event.wlUpsert basicWl]).2
      basicWl.uid basicWl 2 (backendValueOf basicWl)
      (by decide) (by decide) (by decide) (by decide)⟩

/-- C2: after upserting a service with VIPs 10.240.10.1 and 10.240.10.2 and
then a STANDARD workload at 1.2.3.4 whose membership lists that service,
the frontend holds both VIPs (upstream = service id 1) and 1.2.3.4
(upstream = workload id 2), the service entry has endpointCount 1,
endpoint slot (1, 1) holds the workload id, and the backend entry for the
workload id records IP 1.2.3.4. -/
theorem basic_add_writes_all_tables :
    findA basicState.frontend [10, 240, 10, 1] = some 1 ∧
    findA basicState.frontend [10, 240, 10, 2] = some 1 ∧
    findA basicState.frontend [1, 2, 3, 4] = some 2 ∧
    (findA basicState.serviceMap 1).map ServiceValue.endpointCount = some 1 ∧
    findA basicState.endpointMap (1, 1) = some 2 ∧
    (findA basicState.backendMap 2).map BackendValue.ip = some [1, 2, 3, 4] := by
  decide

/-- C4: after a restart (marker set, caches cleared, endpoint keys restored
into the shadow) the first full snapshot converges the tables.  Ids: svc1,
svc2, svc3 are 1, 2, 3; wl1, wl2, wl3 are 4, 5, 6; wl4 is 7 and svc4 is 8.
Endpoint counts become 2, 1, 1, 1; the endpoint slots hold exactly the new
memberships with no slot past the count; wl3's frontend and backend
entries are pruned; and wl1's id is 4 both before and after the restart. -/
theorem restart_snapshot_converges :
    ((findA postRestartState.serviceMap 1).map ServiceValue.endpointCount = some 2 ∧
     (findA postRestartState.serviceMap 2).map ServiceValue.endpointCount = some 1 ∧
     (findA postRestartState.serviceMap 3).map ServiceValue.endpointCount = some 1 ∧
     (findA postRestartState.serviceMap 8).map ServiceValue.endpointCount = some 1) ∧
    (findA postRestartState.endpointMap (1, 1) = some 4 ∧
     findA postRestartState.endpointMap (1, 2) = some 5 ∧
     findA postRestartState.endpointMap (1, 3) = none ∧
     findA postRestartState.endpointMap (2, 1) = some 5 ∧
     findA postRestartState.endpointMap (2, 2) = none ∧
     findA postRestartState.endpointMap (3, 1) = some 5 ∧
     findA postRestartState.endpointMap (3, 2) = none ∧
     findA postRestartState.endpointMap (8, 1) = some 7 ∧
     findA postRestartState.endpointMap (8, 2) = none) ∧
    (findA postRestartState.frontend [10, 244, 0, 3] = none ∧
     findA postRestartState.backendMap 6 = none) ∧
    (findA preRestartState.strToNum (wlUid "wl1") = some 4 ∧
     findA postRestartState.strToNum (wlUid "wl1") = some 4) := by
  decide

end KmeshSpec
